import Mathlib

/-!
Verification development for `cs_scanimage.py` (container-image-scan).

The Python program is embedded shallowly:

* JSON documents (`resp.json()` values, the `ScanReport` dict) become the
  inductive type `Json`; Python string keys index `Json.obj` field lists.
* Python exceptions become the error type `PyErr` threaded through
  `Except PyErr`: `d[k]` on a dict without the key raises `KeyError`,
  subscripting a non-dict raises `TypeError`, `.get`/`.lower()` on a value
  of the wrong type raises `AttributeError`, and the `APIError` class of
  the script carries its status string.
* `int` values of the report are modelled as `Int`; the score arithmetic
  of `get_alerts_vuln` never leaves `Nat`.
-/

/-- A JSON document, as produced by `resp.json()` and held by the
`ScanReport` dict of `cs_scanimage.py`.  Numbers are restricted to
integers in this model. -/
inductive Json where
  | null : Json
  | bool (b : Bool) : Json
  | num (n : Int) : Json
  | str (s : String) : Json
  | arr (xs : List Json) : Json
  | obj (fields : List (String × Json)) : Json
deriving Repr

mutual

/-- Structural equality of JSON documents. -/
def Json.beq : Json → Json → Bool
  | .null, .null => true
  | .bool a, .bool b => a == b
  | .num a, .num b => a == b
  | .str a, .str b => a == b
  | .arr xs, .arr ys => Json.beqList xs ys
  | .obj xs, .obj ys => Json.beqFields xs ys
  | _, _ => false

/-- Structural equality of JSON lists. -/
def Json.beqList : List Json → List Json → Bool
  | [], [] => true
  | x :: xs, y :: ys => Json.beq x y && Json.beqList xs ys
  | _, _ => false

/-- Structural equality of JSON field lists. -/
def Json.beqFields : List (String × Json) → List (String × Json) → Bool
  | [], [] => true
  | (k, v) :: xs, (l, w) :: ys => k == l && Json.beq v w && Json.beqFields xs ys
  | _, _ => false

end

mutual

theorem Json.beq_iff : ∀ (a b : Json), Json.beq a b = true ↔ a = b
  | .null, b => by cases b <;> simp [Json.beq]
  | .bool x, b => by cases b <;> simp [Json.beq]
  | .num x, b => by cases b <;> simp [Json.beq]
  | .str x, b => by cases b <;> simp [Json.beq]
  | .arr xs, b => by
      cases b <;> simp [Json.beq]
      exact Json.beqList_iff xs _
  | .obj xs, b => by
      cases b <;> simp [Json.beq]
      exact Json.beqFields_iff xs _

theorem Json.beqList_iff : ∀ (xs ys : List Json), Json.beqList xs ys = true ↔ xs = ys
  | [], ys => by cases ys <;> simp [Json.beqList]
  | x :: xs, [] => by simp [Json.beqList]
  | x :: xs, y :: ys => by
      simp [Json.beqList, Json.beq_iff x y, Json.beqList_iff xs ys]

theorem Json.beqFields_iff :
    ∀ (xs ys : List (String × Json)), Json.beqFields xs ys = true ↔ xs = ys
  | [], ys => by cases ys <;> simp [Json.beqFields]
  | x :: xs, [] => by simp [Json.beqFields]
  | (k, v) :: xs, (l, w) :: ys => by
      simp [Json.beqFields, Json.beq_iff v w, Json.beqFields_iff xs ys, and_assoc]

end

instance : DecidableEq Json := fun a b =>
  decidable_of_iff (Json.beq a b = true) (Json.beq_iff a b)

deriving instance DecidableEq for Except

/-- The Python exceptions that the evaluation code of `cs_scanimage.py`
can raise, plus the script's own `APIError` (which carries the status
string built at the raise site) and the `UnboundLocalError` reachable in
`get_scanreport` with a zero retry count. -/
inductive PyErr where
  | keyError : PyErr
  | typeError : PyErr
  | attributeError : PyErr
  | unboundLocalError : PyErr
  | apiError (status : String) : PyErr
deriving DecidableEq, Repr

/-- Reduction of a successful monadic bind on `Except PyErr`. -/
theorem pyBind_ok {α β : Type} (a : α) (f : α → Except PyErr β) :
    (do let x ← Except.ok a; f x) = f a := rfl

/-- Reduction of a failed monadic bind on `Except PyErr`. -/
theorem pyBind_error {α β : Type} (e : PyErr) (f : α → Except PyErr β) :
    (do let x ← Except.error e; f x) = (Except.error e : Except PyErr β) := rfl

/-- Reduction of `pure` on `Except PyErr`. -/
theorem pyPure {α : Type} (a : α) : (pure a : Except PyErr α) = Except.ok a := rfl

/-- Reduction of `Functor.map` on a successful `Except PyErr`. -/
theorem pyMap_ok {α β : Type} (a : α) (f : α → β) :
    (f <$> (Except.ok a : Except PyErr α)) = Except.ok (f a) := rfl

/-- Reduction of `Functor.map` on a failed `Except PyErr`. -/
theorem pyMap_error {α β : Type} (e : PyErr) (f : α → β) :
    (f <$> (Except.error e : Except PyErr α)) = (Except.error e : Except PyErr β) := rfl

/-- Key lookup in an association list, first binding wins (Python dicts
hold each key once, so on dict-shaped data this is exact). -/
def Json.lookup : List (String × Json) → String → Option Json
  | [], _ => none
  | (k, v) :: rest, key => if k = key then some v else Json.lookup rest key

/-- Python subscription `x[key]` with a string key: on a dict it returns
the value or raises `KeyError`; on any non-dict it raises `TypeError`. -/
def getItem : Json → String → Except PyErr Json
  | .obj fields, key =>
    match Json.lookup fields key with
    | some v => .ok v
    | none => .error .keyError
  | _, _ => .error .typeError

/-- Python `x.get(key, dflt)`: defined on dicts only; any other receiver
raises `AttributeError`. -/
def dictGet : Json → String → Json → Except PyErr Json
  | .obj fields, key, dflt => .ok ((Json.lookup fields key).getD dflt)
  | _, _, _ => .error .attributeError

/-- Case-folding of a string, character by character (the semantics of
`String.toLower`, stated on the character list so that concrete instances
evaluate). -/
def pyLower (s : String) : String := ⟨s.data.map Char.toLower⟩

/-- Python `x.lower()`: defined on strings only; any other receiver
raises `AttributeError`. -/
def strLower : Json → Except PyErr String
  | .str s => .ok (pyLower s)
  | _ => .error .attributeError

/-- Python `for x in v`: lists yield their elements, strings their
one-character substrings, dicts their keys; other values raise
`TypeError`. -/
def pyIter : Json → Except PyErr (List Json)
  | .arr xs => .ok xs
  | .str s => .ok (s.data.map (fun c => .str (String.singleton c)))
  | .obj fields => .ok (fields.map (fun kv => .str kv.1))
  | _ => .error .typeError

/-- Python `isinstance(x, dict)`. -/
def Json.isObj : Json → Bool
  | .obj _ => true
  | _ => false

/-- Python `x is None`. -/
def Json.isNull : Json → Bool
  | .null => true
  | _ => false

/-- The `ScanStatusCode` enum of `cs_scanimage.py`. -/
inductive ScanStatusCode where
  | Vulnerability : ScanStatusCode
  | Malware : ScanStatusCode
  | Secrets : ScanStatusCode
  | Success : ScanStatusCode
  | ScriptFailure : ScanStatusCode
deriving DecidableEq, Repr

/-- The numeric value of each `ScanStatusCode` member. -/
def ScanStatusCode.value : ScanStatusCode → Nat
  | .Vulnerability => 1
  | .Malware => 2
  | .Secrets => 3
  | .Success => 0
  | .ScriptFailure => 10

/-- Lines 186-195 of `get_alerts_vuln`: resolve the severity of one
vulnerability from its `Details` value, preferring
`cvss_v3_score.severity`, then `cvss_v2_score.severity`, then the flat
`severity` field (with default `''`); a non-dict `Details` resolves to
`''` directly. -/
def resolveSeverity (details : Json) : Except PyErr Json :=
  if details.isObj then do
    let cvss_v3 ← dictGet details "cvss_v3_score" (.obj [])
    let sev3 ← dictGet cvss_v3 "severity" .null
    let sev23 ←
      if sev3.isNull then do
        let cvss_v2 ← dictGet details "cvss_v2_score" (.obj [])
        dictGet cvss_v2 "severity" .null
      else pure sev3
    if sev23.isNull then
      dictGet details "severity" (.str "")
    else
      pure sev23
  else
    pure (.str "")

/-- The body of the `for vulnerability in vulnerabilities` loop of
`get_alerts_vuln` (lines 180-208): look up the record's `'Vulnerability'`
value (a raising subscription, not a `.get`), touch `CVEID`, `Details`,
`Product` and `PackageSource` the way the source does, lower the resolved
severity, and return this record's contribution to `vuln_score`
(the four independent `if severity.lower() == ...` additions). -/
def vulnContribution (vulnerability : Json) : Except PyErr Nat := do
  let vuln ← getItem vulnerability "Vulnerability"
  let _cve ← dictGet vuln "CVEID" (.str "CVE-unknown")
  let details ← dictGet vuln "Details" (.obj [])
  let severity ← resolveSeverity details
  let product ← dictGet vuln "Product" (.obj [])
  let _affects ← dictGet product "PackageSource" product
  let sevLower ← strLower severity
  pure ((if sevLower = "low" then 20 else 0) +
        (if sevLower = "medium" then 100 else 0) +
        (if sevLower = "high" then 500 else 0) +
        (if sevLower = "critical" then 2000 else 0))

/-- The accumulation of `vuln_score` over the vulnerability list; the
first raising record aborts the whole loop (there is no `try` in
`get_alerts_vuln`). -/
def vulnLoop : List Json → Nat → Except PyErr Nat
  | [], acc => .ok acc
  | v :: rest, acc => do
    let w ← vulnContribution v
    vulnLoop rest (acc + w)

/-- `ScanReport.get_alerts_vuln` (lines 171-209): read the
`'Vulnerabilities'` key (raising), return 0 when it is `None`, otherwise
iterate and accumulate the per-record score. -/
def get_alerts_vuln (report : Json) : Except PyErr Nat := do
  let vulnerabilities ← getItem report "Vulnerabilities"
  if vulnerabilities.isNull then
    pure 0
  else do
    let vs ← pyIter vulnerabilities
    vulnLoop vs 0

/-- The expression `detection['Detection']['Type'].lower()` shared by the
three detection loops of `cs_scanimage.py`. -/
def detTypeLower (detection : Json) : Except PyErr String := do
  let det ← getItem detection "Detection"
  let ty ← getItem det "Type"
  strLower ty

/-- The shared shape of the `for detection in detections` loops of
`get_alerts_malware`, `get_alerts_secrets` and `get_alerts_misconfig`:
each record's `Detection.Type` is lowered inside a
`try ... except KeyError: continue`, so a `KeyError` skips the record,
any other exception propagates, and the first record whose lowered type
satisfies the comparison breaks the loop. -/
def detectionSearch (p : String → Bool) : List Json → Except PyErr Bool
  | [] => .ok false
  | d :: rest =>
    match detTypeLower d with
    | .error .keyError => detectionSearch p rest
    | .error e => .error e
    | .ok t => if p t then .ok true else detectionSearch p rest

/-- The common prologue of the three detection scanners: read the
`'Detections'` key (raising), treat `None` as an empty iteration, and
iterate otherwise. -/
def reportDetections (report : Json) : Except PyErr (List Json) := do
  let detections ← getItem report "Detections"
  if detections.isNull then pure [] else pyIter detections

/-- `ScanReport.get_alerts_malware` (lines 214-227). -/
def get_alerts_malware (report : Json) : Except PyErr Nat := do
  let ds ← reportDetections report
  let found ← detectionSearch (fun t => t = "malware") ds
  pure (if found then ScanStatusCode.Malware.value else 0)

/-- `ScanReport.get_alerts_secrets` (lines 232-245). -/
def get_alerts_secrets (report : Json) : Except PyErr Nat := do
  let ds ← reportDetections report
  let found ← detectionSearch (fun t => t = "secret") ds
  pure (if found then ScanStatusCode.Secrets.value else 0)

/-- The membership test `in [self.type_misconfig, self.type_cis]` of
`get_alerts_misconfig`. -/
def misconfigMatch (t : String) : Bool :=
  t = "misconfiguration" || t = "cis"

/-- `ScanReport.get_alerts_misconfig` (lines 250-263); note the matching
branch assigns `ScanStatusCode.Success.value`, i.e. 0, so the returned
code is 0 whether or not a misconfiguration is found. -/
def get_alerts_misconfig (report : Json) : Except PyErr Nat := do
  let ds ← reportDetections report
  let found ← detectionSearch misconfigMatch ds
  pure (if found then ScanStatusCode.Success.value else 0)

/-- Whether the `get_alerts_misconfig` loop takes its alert branch (the
branch that logs "Alert: Misconfiguration found"); the returned exit
contribution is 0 either way, so this is the only observable trace of the
misconfiguration signal. -/
def misconfigFound (report : Json) : Except PyErr Bool := do
  let ds ← reportDetections report
  detectionSearch misconfigMatch ds

/-- An HTTP response as seen by the script: a status code and the value
of `resp.json()`. -/
structure HttpResp where
  status : Nat
  body : Json
deriving DecidableEq, Repr

/-- `ScanImage.get_api_token` (lines 106-120): on status 200 or 201
return `resp.json()["access_token"]` (a raising subscription), otherwise
raise `APIError('POST ' + post_url + ' {}'.format(resp.status_code))`. -/
def get_api_token (post_url : String) (resp : HttpResp) : Except PyErr Json :=
  if resp.status = 200 ∨ resp.status = 201 then
    getItem resp.body "access_token"
  else
    .error (.apiError ("POST " ++ post_url ++ " " ++ toString resp.status))

/-- The `sleep_seconds` constant of `get_scanreport`. -/
def sleep_seconds : Nat := 10

/-- The `for count in range(retry_count)` loop of
`ScanImage.get_scanreport` (lines 132-142), over the remaining iteration
indices.  Each iteration first sleeps `sleep_seconds` (recorded in the
returned list), then issues the GET; a 200 returns the parsed body at
once, a non-200 continues with `resp` retained as the last response.
After the loop the code raises `APIError` reading `resp.status_code`;
when no iteration ever ran, `resp` was never assigned and that read
raises `UnboundLocalError` instead. -/
def pollLoop (responses : Nat → HttpResp) (get_url : String) :
    List Nat → Option HttpResp → List Nat × Except PyErr Json
  | [], last =>
    match last with
    | some resp =>
      ([], .error (.apiError ("GET " ++ get_url ++ " " ++ toString resp.status)))
    | none => ([], .error .unboundLocalError)
  | count :: rest, _last =>
    let resp := responses count
    if resp.status = 200 then
      ([sleep_seconds], .ok resp.body)
    else
      let next := pollLoop responses get_url rest (some resp)
      (sleep_seconds :: next.1, next.2)

/-- `ScanImage.get_scanreport` (lines 123-142), with the sequence of HTTP
responses abstracted as a function from attempt index to response.  The
first component lists the sleeps performed (one `sleep_seconds` entry per
attempt, taken before the attempt's GET). -/
def get_scanreport (responses : Nat → HttpResp) (retry_count : Nat)
    (get_url : String) : List Nat × Except PyErr Json :=
  pollLoop responses get_url (List.range retry_count) none

/-- Lines 376-394 of `main`: evaluate the four signals in source order
(vulnerability score, secrets, malware, misconfiguration), then exit with
`Secrets` if the secrets code matched, else `Malware` if the malware code
matched, else `Vulnerability` if the score reaches the threshold, else
`Success`.  An exception from any evaluator propagates. -/
def mainExitCode (report : Json) (score : Int) : Except PyErr Nat := do
  let f_vuln_score ← get_alerts_vuln report
  let f_secrets ← get_alerts_secrets report
  let f_malware ← get_alerts_malware report
  let _ ← get_alerts_misconfig report
  if f_secrets = ScanStatusCode.Secrets.value then
    pure ScanStatusCode.Secrets.value
  else if f_malware = ScanStatusCode.Malware.value then
    pure ScanStatusCode.Malware.value
  else if score ≤ (f_vuln_score : Int) then
    pure ScanStatusCode.Vulnerability.value
  else
    pure ScanStatusCode.Success.value

/-- Which `except` clause of `main` (lines 396-401) handles the end of
the run. -/
inductive HandlerUsed where
  | noHandler : HandlerUsed
  | apiHandler : HandlerUsed
  | catchAllHandler : HandlerUsed
deriving DecidableEq, Repr

/-- The exception handling of `main`: a normal completion keeps its exit
code, an `APIError` is handled by the first clause, and every other
exception by the broad `except Exception` clause; both clauses exit with
`ScriptFailure`. -/
def mainHandler : Except PyErr Nat → Nat × HandlerUsed
  | .ok c => (c, .noHandler)
  | .error (.apiError _) => (ScanStatusCode.ScriptFailure.value, .apiHandler)
  | .error _ => (ScanStatusCode.ScriptFailure.value, .catchAllHandler)

/-- The process exit code of a run that reached evaluation of `report`:
the decision of lines 381-394, with any exception mapped to
`ScriptFailure` by the handlers of lines 396-401. -/
def mainExit (report : Json) (score : Int) : Nat :=
  (mainHandler (mainExitCode report score)).1

/-- Outcome of a whole run from the authentication step on: the process
exit code and the number of report-poll attempts performed. -/
structure RunOutcome where
  exitCode : Nat
  pollAttempts : Nat
deriving DecidableEq, Repr

/-- Lines 371-401 of `main` from `get_api_token` on: a failed
authentication is handled without any poll attempt; otherwise the report
is polled and, on success, evaluated and decided.  Poll attempts are
counted by the sleeps of `get_scanreport` (exactly one per GET). -/
def runMain (authResp : HttpResp) (responses : Nat → HttpResp)
    (retry_count : Nat) (score : Int) (post_url get_url : String) : RunOutcome :=
  match get_api_token post_url authResp with
  | .error _ => ⟨ScanStatusCode.ScriptFailure.value, 0⟩
  | .ok _token =>
    let poll := get_scanreport responses retry_count get_url
    match poll.2 with
    | .error _ => ⟨ScanStatusCode.ScriptFailure.value, poll.1.length⟩
    | .ok report => ⟨mainExit report score, poll.1.length⟩

/-- The severity weight table of the specification: the fixed weights
low=20, medium=100, high=500, critical=2000 on the case-folded severity,
0 for anything unrecognized. -/
def severityWeightTable (sevLower : String) : Nat :=
  if sevLower = "low" then 20
  else if sevLower = "medium" then 100
  else if sevLower = "high" then 500
  else if sevLower = "critical" then 2000
  else 0

/-- The per-record severity resolution of `get_alerts_vuln`, stopping
right after `severity.lower()`: the case-folded severity string the
record's score contribution is decided by. -/
def vulnSeverityLower (vulnerability : Json) : Except PyErr String := do
  let vuln ← getItem vulnerability "Vulnerability"
  let _cve ← dictGet vuln "CVEID" (.str "CVE-unknown")
  let details ← dictGet vuln "Details" (.obj [])
  let severity ← resolveSeverity details
  strLower severity

/-- Whether one detection record carries (via `Detection.Type`) a string
type whose case-folding satisfies `p`. -/
def detTypeMatches (p : String → Bool) (d : Json) : Bool :=
  match detTypeLower d with
  | .ok t => p t
  | .error _ => false

/-- Whether the report carries a detection of a type satisfying `p`
among its (well-formed) detection sequence. -/
def detectionOfTypeExists (p : String → Bool) (report : Json) : Bool :=
  match reportDetections report with
  | .ok ds => ds.any (detTypeMatches p)
  | .error _ => false

/-- Erase from a detection list exactly the records whose `Detection.Type`
is a string case-folding to `misconfiguration` or `cis`. -/
def filterNonMisconfig (ds : List Json) : List Json :=
  ds.filter (fun d => !(detTypeMatches misconfigMatch d))

/-- A successful detection scan returns `true` exactly when some record
of the list carries a matching type: the `break` stops at the first
match, but every record before it was either skipped (missing key) or
non-matching. -/
theorem detectionSearch_ok_any (p : String → Bool) :
    ∀ (ds : List Json) (b : Bool), detectionSearch p ds = .ok b →
      b = ds.any (detTypeMatches p)
  | [], b, h => by
      simp only [detectionSearch] at h
      cases h
      simp
  | d :: rest, b, h => by
      rw [detectionSearch] at h
      cases hd : detTypeLower d with
      | ok t =>
        rw [hd] at h
        by_cases hp : p t = true
        · simp only [hp, if_true] at h
          cases h
          simp [List.any_cons, detTypeMatches, hd, hp]
        · simp only [hp, if_false] at h
          have ih := detectionSearch_ok_any p rest b h
          simp [List.any_cons, detTypeMatches, hd, hp, ih]
      | error e =>
        rw [hd] at h
        cases e with
        | keyError =>
          have ih := detectionSearch_ok_any p rest b h
          simp [List.any_cons, detTypeMatches, hd, ih]
        | typeError => cases h
        | attributeError => cases h
        | unboundLocalError => cases h
        | apiError s => cases h

/-- A record whose type lookup dies with `KeyError` is skipped: the scan
of any list containing it equals the scan of the list without it. -/
theorem detectionSearch_skips_keyError (p : String → Bool) (bad : Json)
    (hbad : detTypeLower bad = .error .keyError) :
    ∀ (l1 l2 : List Json),
      detectionSearch p (l1 ++ bad :: l2) = detectionSearch p (l1 ++ l2)
  | [], l2 => by
      simp only [List.nil_append]
      rw [detectionSearch, hbad]
  | d :: l1, l2 => by
      simp only [List.cons_append]
      rw [detectionSearch, detectionSearch]
      cases hd : detTypeLower d with
      | ok t =>
        by_cases hp : p t = true
        · simp [hp]
        · simp [hp, detectionSearch_skips_keyError p bad hbad l1 l2]
      | error e =>
        cases e <;> simp [detectionSearch_skips_keyError p bad hbad l1 l2]

/-- A scan whose records all either carry a type or die with `KeyError`
completes without an exception. -/
theorem detectionSearch_total (p : String → Bool) :
    ∀ (ds : List Json),
      (∀ d ∈ ds, detTypeLower d = .error .keyError ∨ ∃ t, detTypeLower d = .ok t) →
      ∃ b, detectionSearch p ds = .ok b
  | [], _ => ⟨false, rfl⟩
  | d :: rest, h => by
      rw [detectionSearch]
      rcases h d (by simp) with hd | ⟨t, hd⟩
      · rw [hd]
        exact detectionSearch_total p rest (fun x hx => h x (by simp [hx]))
      · rw [hd]
        by_cases hp : p t = true
        · exact ⟨true, by simp [hp]⟩
        · simp only [hp, if_false]
          exact detectionSearch_total p rest (fun x hx => h x (by simp [hx]))

/-- Records whose type case-folds to a misconfiguration type are
invisible to a scan for a predicate that rejects misconfiguration types:
only the `filterNonMisconfig` part of the list matters. -/
theorem detectionSearch_filter_misconfig (p : String → Bool)
    (hp : ∀ t, misconfigMatch t = true → p t = false) :
    ∀ (ds : List Json),
      detectionSearch p ds = detectionSearch p (filterNonMisconfig ds)
  | [] => rfl
  | d :: rest => by
      have hfold : List.filter (fun d => !detTypeMatches misconfigMatch d) rest
          = filterNonMisconfig rest := rfl
      rw [filterNonMisconfig, List.filter_cons, hfold]
      by_cases hmis : detTypeMatches misconfigMatch d = true
      · simp only [hmis, Bool.not_true, if_false]
        rcases ht : detTypeLower d with e | t
        · simp [detTypeMatches, ht] at hmis
        · rw [detectionSearch, ht]
          have : p t = false := by
            apply hp
            simpa [detTypeMatches, ht] using hmis
          simp only [this, if_false]
          exact detectionSearch_filter_misconfig p hp rest
      · simp only [Bool.not_eq_true] at hmis
        simp only [hmis, Bool.not_false, if_true]
        rw [detectionSearch, detectionSearch]
        rcases ht : detTypeLower d with e | t
        · cases e <;> simp [detectionSearch_filter_misconfig p hp rest]
        · by_cases hpt : p t = true
          · simp [hpt]
          · simp [hpt, detectionSearch_filter_misconfig p hp rest]

/-- The four independent severity tests of `get_alerts_vuln` add up to
the specification's single weight table: the four lowered severity
strings are pairwise distinct, so at most one test fires. -/
theorem fourIf_eq_severityWeightTable (s : String) :
    (if s = "low" then 20 else 0) + (if s = "medium" then 100 else 0) +
      (if s = "high" then 500 else 0) + (if s = "critical" then 2000 else 0)
      = severityWeightTable s := by
  unfold severityWeightTable
  by_cases h1 : s = "low" <;> by_cases h2 : s = "medium" <;>
    by_cases h3 : s = "high" <;> by_cases h4 : s = "critical" <;>
    simp_all

/-- When a record's whole loop body succeeds and its severity resolution
succeeds, the contribution is the weight-table entry of the resolved,
case-folded severity. -/
theorem vulnContribution_table (v : Json) (n : Nat) (s : String)
    (hc : vulnContribution v = .ok n) (hs : vulnSeverityLower v = .ok s) :
    n = severityWeightTable s := by
  unfold vulnContribution at hc
  unfold vulnSeverityLower at hs
  cases h1 : getItem v "Vulnerability" with
  | error e => simp [h1, pyBind_error] at hc
  | ok vuln =>
    simp only [h1, pyBind_ok] at hc hs
    cases h2 : dictGet vuln "CVEID" (.str "CVE-unknown") with
    | error e => simp [h2, pyBind_error] at hc
    | ok cve =>
      simp only [h2, pyBind_ok] at hc hs
      cases h3 : dictGet vuln "Details" (.obj []) with
      | error e => simp [h3, pyBind_error] at hc
      | ok details =>
        simp only [h3, pyBind_ok] at hc hs
        cases h4 : resolveSeverity details with
        | error e => simp [h4, pyBind_error] at hc
        | ok severity =>
          simp only [h4, pyBind_ok] at hc hs
          cases h5 : dictGet vuln "Product" (.obj []) with
          | error e => simp [h5, pyBind_error] at hc
          | ok product =>
            simp only [h5, pyBind_ok] at hc
            cases h6 : dictGet product "PackageSource" product with
            | error e => simp [h6, pyBind_error] at hc
            | ok affects =>
              simp only [h6, pyBind_ok] at hc
              cases h7 : strLower severity with
              | error e => simp [h7, pyBind_error, pyMap_error] at hc
              | ok sevLower =>
                simp only [h7, pyBind_ok, pyMap_ok] at hc hs
                simp only [pyPure, Except.ok.injEq] at hc hs
                subst hs
                rw [← hc, ← fourIf_eq_severityWeightTable]

/-- The score accumulation of `get_alerts_vuln` over a list whose
records all succeed: starting accumulator plus the sum of the
contributions. -/
theorem vulnLoop_ok (w : Json → Nat) :
    ∀ (vs : List Json) (acc : Nat),
      (∀ v ∈ vs, vulnContribution v = .ok (w v)) →
      vulnLoop vs acc = .ok (acc + (vs.map w).sum)
  | [], acc, _ => by simp [vulnLoop]
  | v :: rest, acc, h => by
      rw [vulnLoop]
      rw [h v (by simp), pyBind_ok]
      have ih := vulnLoop_ok w rest (acc + w v) (fun x hx => h x (by simp [hx]))
      rw [ih]
      simp [Nat.add_assoc]

/-- A vulnerability loop whose records all succeed produces a score. -/
theorem vulnLoop_total :
    ∀ (vs : List Json) (acc : Nat),
      (∀ v ∈ vs, ∃ n, vulnContribution v = .ok n) →
      ∃ n, vulnLoop vs acc = .ok n
  | [], acc, _ => ⟨acc, rfl⟩
  | v :: rest, acc, h => by
      rw [vulnLoop]
      obtain ⟨n, hn⟩ := h v (by simp)
      rw [hn, pyBind_ok]
      exact vulnLoop_total rest (acc + n) (fun x hx => h x (by simp [hx]))

/-- Characterization of a successful run of `get_alerts_secrets`: the
returned code is `Secrets` exactly when a secret-typed detection exists. -/
theorem get_alerts_secrets_ok (r : Json) (s : Nat)
    (h : get_alerts_secrets r = .ok s) :
    s = if detectionOfTypeExists (fun t => t = "secret") r then
          ScanStatusCode.Secrets.value else 0 := by
  unfold get_alerts_secrets at h
  cases hds : reportDetections r with
  | error e => simp [hds, pyBind_error] at h
  | ok ds =>
    simp only [hds, pyBind_ok] at h
    cases hsr : detectionSearch (fun t => t = "secret") ds with
    | error e => simp [hsr, pyBind_error] at h
    | ok b =>
      simp only [hsr, pyBind_ok, pyPure, Except.ok.injEq] at h
      have hb := detectionSearch_ok_any (fun t => t = "secret") ds b hsr
      unfold detectionOfTypeExists
      simp only [hds]
      rw [← h, hb]

/-- Characterization of a successful run of `get_alerts_malware`: the
returned code is `Malware` exactly when a malware-typed detection exists. -/
theorem get_alerts_malware_ok (r : Json) (m : Nat)
    (h : get_alerts_malware r = .ok m) :
    m = if detectionOfTypeExists (fun t => t = "malware") r then
          ScanStatusCode.Malware.value else 0 := by
  unfold get_alerts_malware at h
  cases hds : reportDetections r with
  | error e => simp [hds, pyBind_error] at h
  | ok ds =>
    simp only [hds, pyBind_ok] at h
    cases hsr : detectionSearch (fun t => t = "malware") ds with
    | error e => simp [hsr, pyBind_error] at h
    | ok b =>
      simp only [hsr, pyBind_ok, pyPure, Except.ok.injEq] at h
      have hb := detectionSearch_ok_any (fun t => t = "malware") ds b hsr
      unfold detectionOfTypeExists
      simp only [hds]
      rw [← h, hb]

/-- Characterization of a successful run of the misconfiguration loop:
its alert branch is taken exactly when a misconfiguration-typed
detection exists. -/
theorem misconfigFound_ok (r : Json) (b : Bool)
    (h : misconfigFound r = .ok b) :
    b = detectionOfTypeExists misconfigMatch r := by
  unfold misconfigFound at h
  cases hds : reportDetections r with
  | error e => simp [hds, pyBind_error] at h
  | ok ds =>
    simp only [hds, pyBind_ok] at h
    have hb := detectionSearch_ok_any misconfigMatch ds b h
    unfold detectionOfTypeExists
    simp only [hds]
    exact hb

/-- The decision of `main` expressed on already-evaluated signal codes. -/
theorem mainExitCode_ok (r : Json) (score : Int) (v s m u : Nat)
    (hv : get_alerts_vuln r = .ok v) (hs : get_alerts_secrets r = .ok s)
    (hm : get_alerts_malware r = .ok m) (hu : get_alerts_misconfig r = .ok u) :
    mainExitCode r score = .ok
      (if s = ScanStatusCode.Secrets.value then ScanStatusCode.Secrets.value
       else if m = ScanStatusCode.Malware.value then ScanStatusCode.Malware.value
       else if score ≤ (v : Int) then ScanStatusCode.Vulnerability.value
       else ScanStatusCode.Success.value) := by
  unfold mainExitCode
  simp only [hv, hs, hm, hu, pyBind_ok]
  split_ifs <;> simp_all [pyPure]

/-- Success case of the polling loop over the iteration indices
`[a, a+1, ...]`: if the first 200 among them is at index `i`, the loop
sleeps once per attempt up to and including attempt `i` and returns the
parsed body of response `i`. -/
theorem pollLoop_success (responses : Nat → HttpResp) (get_url : String) (i : Nat)
    (h200 : (responses i).status = 200) :
    ∀ (n a : Nat) (last : Option HttpResp), a ≤ i → i < a + n →
      (∀ j, a ≤ j → j < i → (responses j).status ≠ 200) →
      pollLoop responses get_url (List.range' a n) last
        = (List.replicate (i + 1 - a) sleep_seconds, .ok (responses i).body)
  | 0, a, last, hai, hia, _ => by omega
  | n + 1, a, last, hai, hia, hne => by
      rw [List.range'_succ, pollLoop]
      by_cases hae : a = i
      · subst hae
        simp [h200, Nat.add_sub_cancel_left, List.replicate]
      · have halt : a < i := lt_of_le_of_ne hai hae
        have hne_a : (responses a).status ≠ 200 := hne a le_rfl halt
        simp only [hne_a, if_false]
        rw [pollLoop_success responses get_url i h200 n (a + 1) (some (responses a))
              (by omega) (by omega) (fun j hj1 hj2 => hne j (by omega) hj2)]
        have : i + 1 - a = (i + 1 - (a + 1)) + 1 := by omega
        rw [this, List.replicate_succ]

/-- Exhaustion case of the polling loop: if every attempted index
answers non-200 and at least one iteration runs, the loop sleeps once
per attempt and raises `APIError` carrying the status of the last
attempt. -/
theorem pollLoop_exhaust (responses : Nat → HttpResp) (get_url : String) :
    ∀ (n a : Nat) (last : Option HttpResp), 1 ≤ n →
      (∀ j, a ≤ j → j < a + n → (responses j).status ≠ 200) →
      pollLoop responses get_url (List.range' a n) last
        = (List.replicate n sleep_seconds,
           .error (.apiError
             ("GET " ++ get_url ++ " " ++ toString (responses (a + n - 1)).status)))
  | 0, a, last, h1, _ => by omega
  | 1, a, last, _, hne => by
      rw [List.range'_succ, pollLoop]
      have hne_a : (responses a).status ≠ 200 := hne a le_rfl (by omega)
      simp only [hne_a, if_false]
      rw [show List.range' (a + 1) 0 = [] from rfl, pollLoop]
      simp [List.replicate]
  | n + 2, a, last, _, hne => by
      rw [List.range'_succ, pollLoop]
      have hne_a : (responses a).status ≠ 200 := hne a le_rfl (by omega)
      simp only [hne_a, if_false]
      rw [pollLoop_exhaust responses get_url (n + 1) (a + 1) (some (responses a))
            (by omega) (fun j hj1 hj2 => hne j (by omega) (by omega))]
      have : a + 1 + (n + 1) - 1 = a + (n + 2) - 1 := by omega
      rw [this, ← List.replicate_succ]

/-- A report whose `Detections` key holds a list iterates exactly that
list. -/
theorem reportDetections_arr (r : Json) (dets : List Json)
    (hd : getItem r "Detections" = .ok (.arr dets)) :
    reportDetections r = .ok dets := by
  unfold reportDetections
  simp [hd, pyBind_ok, Json.isNull, pyIter, pyPure]

/-- Inversion of a successful run of lines 376-394: every signal
evaluated, and the exit code is the first-match decision over the
returned codes. -/
theorem mainExitCode_inv (r : Json) (score : Int) (c : Nat)
    (h : mainExitCode r score = .ok c) :
    ∃ v s m u, get_alerts_vuln r = .ok v ∧ get_alerts_secrets r = .ok s
      ∧ get_alerts_malware r = .ok m ∧ get_alerts_misconfig r = .ok u
      ∧ c = (if s = ScanStatusCode.Secrets.value then ScanStatusCode.Secrets.value
             else if m = ScanStatusCode.Malware.value then ScanStatusCode.Malware.value
             else if score ≤ (v : Int) then ScanStatusCode.Vulnerability.value
             else ScanStatusCode.Success.value) := by
  unfold mainExitCode at h
  cases hv : get_alerts_vuln r with
  | error e => simp [hv, pyBind_error] at h
  | ok v =>
    simp only [hv, pyBind_ok] at h
    cases hs : get_alerts_secrets r with
    | error e => simp [hs, pyBind_error] at h
    | ok s =>
      simp only [hs, pyBind_ok] at h
      cases hm : get_alerts_malware r with
      | error e => simp [hm, pyBind_error] at h
      | ok m =>
        simp only [hm, pyBind_ok] at h
        cases hu : get_alerts_misconfig r with
        | error e => simp [hu, pyBind_error] at h
        | ok u =>
          simp only [hu, pyBind_ok] at h
          refine ⟨v, s, m, u, rfl, rfl, rfl, rfl, ?_⟩
          split_ifs at h <;> split_ifs <;> simp_all [pyPure]

/-- C1: for every scan report that reaches the Deciding step (all four
signals evaluated without an exception), the exit code follows the
first-match precedence Secrets=3, then Malware=2, then score at or above
threshold giving Vulnerability=1, else Success=0 — secrets win even when
malware is also present. -/
theorem decision_precedence (report : Json) (score : Int) (v s m u : Nat)
    (hv : get_alerts_vuln report = .ok v)
    (hs : get_alerts_secrets report = .ok s)
    (hm : get_alerts_malware report = .ok m)
    (hu : get_alerts_misconfig report = .ok u) :
    mainExitCode report score = .ok
      (if detectionOfTypeExists (fun t => t = "secret") report then 3
       else if detectionOfTypeExists (fun t => t = "malware") report then 2
       else if score ≤ (v : Int) then 1
       else 0) := by
  rw [mainExitCode_ok report score v s m u hv hs hm hu]
  rw [get_alerts_secrets_ok report s hs, get_alerts_malware_ok report m hm]
  by_cases h1 : detectionOfTypeExists (fun t => t = "secret") report = true <;>
    by_cases h2 : detectionOfTypeExists (fun t => t = "malware") report = true <;>
    simp [h1, h2, ScanStatusCode.value]

/-- Concrete report carrying both a secret and a malware detection. -/
def c1Report : Json :=
  .obj [("Vulnerabilities", .arr []),
        ("Detections", .arr [.obj [("Detection", .obj [("Type", .str "Malware")])],
                             .obj [("Detection", .obj [("Type", .str "Secret")])]])]

/-- Witness for `decision_precedence`: with both secrets and malware
present the exit code is 3, not 2. -/
theorem decision_precedence_witness : mainExitCode c1Report 500 = .ok 3 := by
  have h := decision_precedence c1Report 500 0 3 2 0 rfl rfl rfl rfl
  rw [h]
  decide

/-- A record matches a type predicate exactly when its `Detection.Type`
path yields a string whose case-folding satisfies it. -/
theorem detTypeMatches_iff (p : String → Bool) (d : Json) :
    detTypeMatches p d = true ↔ ∃ t, detTypeLower d = .ok t ∧ p t = true := by
  unfold detTypeMatches
  cases h : detTypeLower d <;> simp

/-- Existence of a matching record in a list, stated through `List.any`. -/
theorem any_detTypeMatches_iff (p : String → Bool) (ds : List Json) :
    ds.any (detTypeMatches p) = true ↔
      ∃ d ∈ ds, ∃ t, detTypeLower d = .ok t ∧ p t = true := by
  rw [List.any_eq_true]
  constructor
  · rintro ⟨d, hd, hm⟩
    exact ⟨d, hd, (detTypeMatches_iff p d).mp hm⟩
  · rintro ⟨d, hd, t, ht, hp⟩
    exact ⟨d, hd, (detTypeMatches_iff p d).mpr ⟨t, ht, hp⟩⟩

/-- C5: over the detection list of a report, a successful malware scan
returns code 2 iff some detection's case-folded type is `malware`, a
successful secrets scan returns code 3 iff some type is `secret`, the
misconfiguration branch fires iff some type is `misconfiguration` or
`cis`, and an empty detection list raises none of the three signals. -/
theorem detection_signals_iff (r : Json) (ds : List Json) (m s : Nat) (b : Bool)
    (hds : reportDetections r = .ok ds)
    (hm : get_alerts_malware r = .ok m)
    (hs : get_alerts_secrets r = .ok s)
    (hb : misconfigFound r = .ok b) :
    (m = ScanStatusCode.Malware.value ↔
       ∃ d ∈ ds, ∃ t, detTypeLower d = .ok t ∧ t = "malware")
    ∧ (s = ScanStatusCode.Secrets.value ↔
       ∃ d ∈ ds, ∃ t, detTypeLower d = .ok t ∧ t = "secret")
    ∧ (b = true ↔
       ∃ d ∈ ds, ∃ t, detTypeLower d = .ok t ∧ (t = "misconfiguration" ∨ t = "cis"))
    ∧ (ds = [] → m = 0 ∧ s = 0 ∧ b = false) := by
  have hmc := get_alerts_malware_ok r m hm
  have hsc := get_alerts_secrets_ok r s hs
  have hbc := misconfigFound_ok r b hb
  have hexm : detectionOfTypeExists (fun t => t = "malware") r
      = ds.any (detTypeMatches (fun t => t = "malware")) := by
    unfold detectionOfTypeExists; simp [hds]
  have hexs : detectionOfTypeExists (fun t => t = "secret") r
      = ds.any (detTypeMatches (fun t => t = "secret")) := by
    unfold detectionOfTypeExists; simp [hds]
  have hexb : detectionOfTypeExists misconfigMatch r
      = ds.any (detTypeMatches misconfigMatch) := by
    unfold detectionOfTypeExists; simp [hds]
  have hEm : (∃ d ∈ ds, ∃ t, detTypeLower d = .ok t ∧ t = "malware") ↔
      ds.any (detTypeMatches (fun t => t = "malware")) = true := by
    rw [any_detTypeMatches_iff]; simp
  have hEs : (∃ d ∈ ds, ∃ t, detTypeLower d = .ok t ∧ t = "secret") ↔
      ds.any (detTypeMatches (fun t => t = "secret")) = true := by
    rw [any_detTypeMatches_iff]; simp
  have hEb : (∃ d ∈ ds, ∃ t, detTypeLower d = .ok t ∧
      (t = "misconfiguration" ∨ t = "cis")) ↔
      ds.any (detTypeMatches misconfigMatch) = true := by
    rw [any_detTypeMatches_iff]; simp [misconfigMatch]
  refine ⟨?_, ?_, ?_, ?_⟩
  · rw [hmc, hexm, hEm]
    cases hX : ds.any (detTypeMatches (fun t => t = "malware")) <;>
      simp [hX, ScanStatusCode.value]
  · rw [hsc, hexs, hEs]
    cases hX : ds.any (detTypeMatches (fun t => t = "secret")) <;>
      simp [hX, ScanStatusCode.value]
  · rw [hbc, hexb, hEb]
  · intro hnil
    subst hnil
    simp only [List.any_nil] at hexm hexs hexb
    constructor
    · rw [hmc, hexm]; simp
    constructor
    · rw [hsc, hexs]; simp
    · rw [hbc, hexb]

/-- Concrete malware detection (mixed-case type). -/
def c5dMal : Json := .obj [("Detection", .obj [("Type", .str "Malware")])]

/-- Concrete detection record with a misspelled key, skipped by the
scanners. -/
def c5dNoKey : Json := .obj [("Detection", .obj [("Typo", .str "malware")])]

/-- Concrete report with a malware detection and a skippable record. -/
def c5Report : Json :=
  .obj [("Vulnerabilities", .arr []), ("Detections", .arr [c5dMal, c5dNoKey])]

/-- Concrete report with an empty detection list. -/
def c5ReportEmpty : Json :=
  .obj [("Vulnerabilities", .arr []), ("Detections", .arr [])]

/-- Witness for `detection_signals_iff`: an empty detection list raises
no signal, and a malware-typed record makes the malware scan return 2. -/
theorem detection_signals_iff_witness :
    ((0 : Nat) = 0 ∧ (0 : Nat) = 0 ∧ false = false)
    ∧ (2 : Nat) = ScanStatusCode.Malware.value := by
  refine ⟨(detection_signals_iff c5ReportEmpty [] 0 0 false rfl rfl rfl rfl).2.2.2 rfl, ?_⟩
  exact (detection_signals_iff c5Report [c5dMal, c5dNoKey] 2 0 false rfl rfl rfl rfl).1.mpr
    ⟨c5dMal, by simp, "malware", rfl, rfl⟩

/-- C6: the report poller sleeps the fixed interval before every
attempt, returns the parsed report of the first 200 response without any
further attempt, and after `retry_count` consecutive non-200 responses
(at least one attempt) raises `APIError` carrying the last observed
status code. -/
theorem poller_first_success_and_exhaustion (responses : Nat → HttpResp)
    (retry_count i : Nat) (get_url : String) :
    (i < retry_count → (responses i).status = 200 →
      (∀ j, j < i → (responses j).status ≠ 200) →
      get_scanreport responses retry_count get_url
        = (List.replicate (i + 1) sleep_seconds, .ok (responses i).body))
    ∧ ((∀ j, j < retry_count → (responses j).status ≠ 200) → 1 ≤ retry_count →
      get_scanreport responses retry_count get_url
        = (List.replicate retry_count sleep_seconds,
           .error (.apiError ("GET " ++ get_url ++ " " ++
             toString (responses (retry_count - 1)).status)))) := by
  constructor
  · intro h1 h2 h3
    unfold get_scanreport
    rw [List.range_eq_range']
    have h := pollLoop_success responses get_url i h2 retry_count 0 none
      (by omega) (by omega) (fun j _ hj2 => h3 j hj2)
    simpa using h
  · intro h1 h2
    unfold get_scanreport
    rw [List.range_eq_range']
    have h := pollLoop_exhaust responses get_url retry_count 0 none h2
      (fun j _ hj2 => h1 j (by omega))
    simpa using h

/-- Concrete response sequence whose second attempt succeeds. -/
def c6RespOk : Nat → HttpResp :=
  fun i => if i = 1 then ⟨200, .str "report"⟩ else ⟨404, .null⟩

/-- Concrete response sequence that never succeeds. -/
def c6RespBad : Nat → HttpResp := fun _ => ⟨404, .null⟩

/-- Witness for `poller_first_success_and_exhaustion` on both branches. -/
theorem poller_first_success_and_exhaustion_witness :
    get_scanreport c6RespOk 5 "url"
      = (List.replicate 2 sleep_seconds, .ok (.str "report"))
    ∧ get_scanreport c6RespBad 3 "url"
      = (List.replicate 3 sleep_seconds, .error (.apiError "GET url 404")) := by
  constructor
  · have h := (poller_first_success_and_exhaustion c6RespOk 5 1 "url").1
      (by decide) (by decide) (by decide)
    rw [h]
    decide
  · have h := (poller_first_success_and_exhaustion c6RespBad 3 0 "url").2
      (by decide) (by decide)
    rw [h]
    decide

/-- C7: `get_api_token` returns the token from the body exactly on
status 200 or 201; on any other status it raises `APIError` carrying the
method, URL and status code, and the run exits with `ScriptFailure`
having performed no poll attempt. -/
theorem auth_token_iff_2xx (post_url get_url : String) (authResp : HttpResp)
    (responses : Nat → HttpResp) (retry_count : Nat) (score : Int) (tok : String)
    (htok : getItem authResp.body "access_token" = .ok (.str tok)) :
    (get_api_token post_url authResp = .ok (.str tok) ↔
       (authResp.status = 200 ∨ authResp.status = 201))
    ∧ (¬(authResp.status = 200 ∨ authResp.status = 201) →
       get_api_token post_url authResp
         = .error (.apiError ("POST " ++ post_url ++ " " ++ toString authResp.status))
       ∧ runMain authResp responses retry_count score post_url get_url
         = ⟨ScanStatusCode.ScriptFailure.value, 0⟩) := by
  constructor
  · constructor
    · intro h
      by_contra hst
      unfold get_api_token at h
      simp only [hst, if_false] at h
      cases h
    · intro hst
      unfold get_api_token
      simp only [hst, if_true]
      exact htok
  · intro hst
    have herr : get_api_token post_url authResp
        = .error (.apiError ("POST " ++ post_url ++ " " ++ toString authResp.status)) := by
      unfold get_api_token
      simp only [hst, if_false]
    refine ⟨herr, ?_⟩
    unfold runMain
    rw [herr]

/-- Witness for `auth_token_iff_2xx`: a 200 answer yields the token; a
401 answer aborts the run with exit 10 and zero poll attempts. -/
theorem auth_token_iff_2xx_witness :
    get_api_token "https://api.crowdstrike.com/oauth2/token"
        ⟨200, .obj [("access_token", .str "tok")]⟩ = .ok (.str "tok")
    ∧ runMain ⟨401, .obj [("access_token", .str "tok")]⟩ (fun _ => ⟨200, .null⟩)
        5 500 "https://api.crowdstrike.com/oauth2/token" "url"
        = ⟨ScanStatusCode.ScriptFailure.value, 0⟩ := by
  constructor
  · exact (auth_token_iff_2xx "https://api.crowdstrike.com/oauth2/token" "url"
      ⟨200, .obj [("access_token", .str "tok")]⟩ (fun _ => ⟨200, .null⟩)
      5 500 "tok" rfl).1.mpr (Or.inl rfl)
  · exact ((auth_token_iff_2xx "https://api.crowdstrike.com/oauth2/token" "url"
      ⟨401, .obj [("access_token", .str "tok")]⟩ (fun _ => ⟨200, .null⟩)
      5 500 "tok" rfl).2 (by decide)).2

/-- C10: with a retry count of 0 the polling loop never runs, the final
read of `resp.status_code` raises `UnboundLocalError` instead of the
`APIError` the report-unavailable path documents, and the run still
exits with `ScriptFailure` only through the broad `except Exception`
handler (the `except APIError` clause does not match). -/
theorem poller_zero_retries_unbound (responses : Nat → HttpResp) (get_url : String)
    (score : Int) :
    get_scanreport responses 0 get_url = ([], .error .unboundLocalError)
    ∧ (∀ st, PyErr.unboundLocalError ≠ PyErr.apiError st)
    ∧ mainHandler (.error .unboundLocalError)
        = (ScanStatusCode.ScriptFailure.value, .catchAllHandler)
    ∧ runMain ⟨200, .obj [("access_token", .str "token")]⟩ responses 0 score
        "post" get_url = ⟨ScanStatusCode.ScriptFailure.value, 0⟩ := by
  exact ⟨rfl, fun st h => PyErr.noConfusion h, rfl, rfl⟩

/-- Witness for `poller_zero_retries_unbound` at a concrete response
sequence. -/
theorem poller_zero_retries_unbound_witness :
    get_scanreport c6RespBad 0 "url" = ([], .error .unboundLocalError) :=
  (poller_zero_retries_unbound c6RespBad "url" 500).1

/-- C3: when every vulnerability record's loop body succeeds, the score
is the sum over the records of the weight-table entry of each record's
resolved, case-folded severity; an empty list sums to 0. -/
theorem vuln_score_sum (report : Json) (vuls : List Json)
    (w : Json → Nat) (sev : Json → String)
    (hr : getItem report "Vulnerabilities" = .ok (.arr vuls))
    (hcon : ∀ v ∈ vuls, vulnContribution v = .ok (w v))
    (hsev : ∀ v ∈ vuls, vulnSeverityLower v = .ok (sev v)) :
    get_alerts_vuln report
      = .ok ((vuls.map (fun v => severityWeightTable (sev v))).sum) := by
  unfold get_alerts_vuln
  simp only [hr, pyBind_ok, Json.isNull, Bool.false_eq_true, if_false,
    pyIter, pyBind_ok]
  have hc : ∀ v ∈ vuls, vulnContribution v = .ok (severityWeightTable (sev v)) := by
    intro v hv
    rw [hcon v hv, vulnContribution_table v (w v) (sev v) (hcon v hv) (hsev v hv)]
  have h := vulnLoop_ok (fun v => severityWeightTable (sev v)) vuls 0 hc
  simpa using h

/-- Concrete vulnerability record of severity `HIGH` under
`cvss_v3_score`. -/
def c3VulnHigh : Json :=
  .obj [("Vulnerability", .obj [("CVEID", .str "CVE-2021-0001"),
    ("Details", .obj [("cvss_v3_score", .obj [("severity", .str "HIGH")])])])]

/-- Concrete report with one high vulnerability. -/
def c3ReportHigh : Json :=
  .obj [("Vulnerabilities", .arr [c3VulnHigh]), ("Detections", .arr [])]

/-- Concrete report with an empty vulnerability list. -/
def c3ReportEmpty : Json :=
  .obj [("Vulnerabilities", .arr []), ("Detections", .arr [])]

/-- Witness for `vuln_score_sum`: one case-insensitive `HIGH` record
scores 500, and an empty list scores 0. -/
theorem vuln_score_sum_witness :
    get_alerts_vuln c3ReportHigh = .ok 500
    ∧ get_alerts_vuln c3ReportEmpty = .ok 0 := by
  constructor
  · have h := vuln_score_sum c3ReportHigh [c3VulnHigh]
      (fun _ => 500) (fun _ => "high") rfl
      (by intro v hv; simp only [List.mem_singleton] at hv; subst hv; rfl)
      (by intro v hv; simp only [List.mem_singleton] at hv; subst hv; rfl)
    rw [h]
    decide
  · have h := vuln_score_sum c3ReportEmpty []
      (fun _ => 0) (fun _ => "") rfl (by simp) (by simp)
    rw [h]
    decide

/-- C4: the severity used for scoring prefers `cvss_v3_score.severity`
when it is present (non-`None`) — in particular over a present
`cvss_v2_score.severity` — then `cvss_v2_score.severity`, then the flat
`severity` field of the details with default `''`, and resolves to `''`
when the details value is not a mapping. -/
theorem severity_priority (details j3 s3 j2 s2 : Json) :
    (details.isObj = true →
      dictGet details "cvss_v3_score" (.obj []) = .ok j3 →
      dictGet j3 "severity" .null = .ok s3 → s3.isNull = false →
      resolveSeverity details = .ok s3)
    ∧ (details.isObj = true →
      dictGet details "cvss_v3_score" (.obj []) = .ok j3 →
      dictGet j3 "severity" .null = .ok s3 → s3.isNull = true →
      dictGet details "cvss_v2_score" (.obj []) = .ok j2 →
      dictGet j2 "severity" .null = .ok s2 → s2.isNull = false →
      resolveSeverity details = .ok s2)
    ∧ (details.isObj = true →
      dictGet details "cvss_v3_score" (.obj []) = .ok j3 →
      dictGet j3 "severity" .null = .ok s3 → s3.isNull = true →
      dictGet details "cvss_v2_score" (.obj []) = .ok j2 →
      dictGet j2 "severity" .null = .ok s2 → s2.isNull = true →
      resolveSeverity details = dictGet details "severity" (.str ""))
    ∧ (details.isObj = false →
      resolveSeverity details = .ok (.str "")) := by
  refine ⟨?_, ?_, ?_, ?_⟩
  · intro hobj h3 hs3 hn3
    unfold resolveSeverity
    simp only [hobj, if_true, h3, pyBind_ok, hs3, hn3, Bool.false_eq_true,
      if_false, pyPure, pyBind_ok]
  · intro hobj h3 hs3 hn3 h2 hs2 hn2
    unfold resolveSeverity
    simp only [hobj, if_true, h3, pyBind_ok, hs3, hn3, if_true, h2,
      pyBind_ok, hs2, hn2, Bool.false_eq_true, if_false, pyPure]
  · intro hobj h3 hs3 hn3 h2 hs2 hn2
    unfold resolveSeverity
    simp only [hobj, if_true, h3, pyBind_ok, hs3, hn3, if_true, h2,
      pyBind_ok, hs2, hn2, if_true]
  · intro hobj
    unfold resolveSeverity
    simp only [hobj, Bool.false_eq_true, if_false, pyPure]

/-- Concrete details with conflicting v3 and v2 severities. -/
def c4DetailsBoth : Json :=
  .obj [("cvss_v3_score", .obj [("severity", .str "High")]),
        ("cvss_v2_score", .obj [("severity", .str "Low")])]

/-- Concrete details with only a v2 severity. -/
def c4DetailsV2 : Json :=
  .obj [("cvss_v2_score", .obj [("severity", .str "Medium")])]

/-- Concrete details with only a flat severity. -/
def c4DetailsFlat : Json := .obj [("severity", .str "Critical")]

/-- Witness for `severity_priority`: v3 wins over v2; v2 used when v3
absent; the flat field used last; non-dict details resolve to the empty
string. -/
theorem severity_priority_witness :
    resolveSeverity c4DetailsBoth = .ok (.str "High")
    ∧ resolveSeverity c4DetailsV2 = .ok (.str "Medium")
    ∧ resolveSeverity c4DetailsFlat = dictGet c4DetailsFlat "severity" (.str "")
    ∧ resolveSeverity (.str "oops") = .ok (.str "") := by
  refine ⟨?_, ?_, ?_, ?_⟩
  · exact (severity_priority c4DetailsBoth (.obj [("severity", .str "High")])
      (.str "High") .null .null).1 rfl rfl rfl rfl
  · exact (severity_priority c4DetailsV2 (.obj []) .null
      (.obj [("severity", .str "Medium")]) (.str "Medium")).2.1 rfl rfl rfl rfl rfl rfl rfl
  · exact (severity_priority c4DetailsFlat (.obj []) .null
      (.obj []) .null).2.2.1 rfl rfl rfl rfl rfl rfl rfl
  · exact (severity_priority (.str "oops") .null .null .null .null).2.2.2 rfl

/-- Concrete report with both required top-level keys present whose
single vulnerability record lacks its inner `Vulnerability` key. -/
def c2ReportVuln : Json :=
  .obj [("Vulnerabilities", .arr [.obj []]), ("Detections", .arr [])]

/-- Concrete report with both required top-level keys present whose
single detection carries a non-string `Type`. -/
def c2ReportDet : Json :=
  .obj [("Vulnerabilities", .arr []),
        ("Detections", .arr [.obj [("Detection", .obj [("Type", .num 5)])]])]

/-- Counterexample to C2: with both required top-level keys present,
a vulnerability record missing its inner `Vulnerability` key makes
`get_alerts_vuln` raise `KeyError`, and a detection whose `Type` is not
a string makes the detection scans raise `AttributeError` — the
malformed records are not skipped. -/
theorem evaluation_totality_counterexample :
    getItem c2ReportVuln "Vulnerabilities" = .ok (.arr [.obj []])
    ∧ getItem c2ReportVuln "Detections" = .ok (.arr [])
    ∧ get_alerts_vuln c2ReportVuln = .error .keyError
    ∧ getItem c2ReportDet "Vulnerabilities" = .ok (.arr [])
    ∧ getItem c2ReportDet "Detections"
        = .ok (.arr [.obj [("Detection", .obj [("Type", .num 5)])]])
    ∧ get_alerts_malware c2ReportDet = .error .attributeError
    ∧ get_alerts_secrets c2ReportDet = .error .attributeError
    ∧ get_alerts_misconfig c2ReportDet = .error .attributeError :=
  ⟨rfl, rfl, rfl, rfl, rfl, rfl, rfl, rfl⟩

/-- C2 (amended): a detection record whose `Detection`/`Type` lookup
dies with `KeyError` is skipped by every detection scan; when both
required top-level keys hold lists, evaluation of all four signals
succeeds provided every vulnerability record's loop body succeeds and
every detection record either yields a type string or dies with
`KeyError`; and a missing required top-level key makes the
corresponding evaluators raise.  (Unlike the original claim, a
vulnerability record missing its inner `Vulnerability` key, or a
detection whose `Type` is present but not a string, aborts the whole
evaluation — see the counterexample.) -/
theorem evaluation_totality_amended (report bad : Json) (vuls dets l1 l2 : List Json)
    (p : String → Bool) :
    (detTypeLower bad = .error .keyError →
      detectionSearch p (l1 ++ bad :: l2) = detectionSearch p (l1 ++ l2))
    ∧ (getItem report "Vulnerabilities" = .ok (.arr vuls) →
      getItem report "Detections" = .ok (.arr dets) →
      (∀ v ∈ vuls, ∃ n, vulnContribution v = .ok n) →
      (∀ d ∈ dets, detTypeLower d = .error .keyError ∨ ∃ t, detTypeLower d = .ok t) →
      (∃ a, get_alerts_vuln report = .ok a)
      ∧ (∃ b, get_alerts_malware report = .ok b)
      ∧ (∃ c, get_alerts_secrets report = .ok c)
      ∧ (∃ e, get_alerts_misconfig report = .ok e))
    ∧ (getItem report "Vulnerabilities" = .error .keyError →
      get_alerts_vuln report = .error .keyError)
    ∧ (getItem report "Detections" = .error .keyError →
      get_alerts_malware report = .error .keyError
      ∧ get_alerts_secrets report = .error .keyError
      ∧ get_alerts_misconfig report = .error .keyError) := by
  refine ⟨?_, ?_, ?_, ?_⟩
  · intro hbad
    exact detectionSearch_skips_keyError p bad hbad l1 l2
  · intro hv hd hvok hdok
    have hds : reportDetections report = .ok dets := reportDetections_arr report dets hd
    refine ⟨?_, ?_, ?_, ?_⟩
    · obtain ⟨n, hn⟩ := vulnLoop_total vuls 0 hvok
      refine ⟨n, ?_⟩
      unfold get_alerts_vuln
      simp only [hv, pyBind_ok, Json.isNull, Bool.false_eq_true, if_false,
        pyIter, pyBind_ok]
      exact hn
    · obtain ⟨b, hb⟩ := detectionSearch_total (fun t => t = "malware") dets hdok
      refine ⟨if b then ScanStatusCode.Malware.value else 0, ?_⟩
      unfold get_alerts_malware
      simp only [hds, pyBind_ok, hb, pyPure]
    · obtain ⟨b, hb⟩ := detectionSearch_total (fun t => t = "secret") dets hdok
      refine ⟨if b then ScanStatusCode.Secrets.value else 0, ?_⟩
      unfold get_alerts_secrets
      simp only [hds, pyBind_ok, hb, pyPure]
    · obtain ⟨b, hb⟩ := detectionSearch_total misconfigMatch dets hdok
      refine ⟨if b then ScanStatusCode.Success.value else 0, ?_⟩
      unfold get_alerts_misconfig
      simp only [hds, pyBind_ok, hb, pyPure]
  · intro hv
    unfold get_alerts_vuln
    simp only [hv, pyBind_error]
  · intro hd
    have hds : reportDetections report = .error .keyError := by
      unfold reportDetections
      simp only [hd, pyBind_error]
    refine ⟨?_, ?_, ?_⟩ <;>
      first
      | (unfold get_alerts_malware; simp only [hds, pyBind_error])
      | (unfold get_alerts_secrets; simp only [hds, pyBind_error])
      | (unfold get_alerts_misconfig; simp only [hds, pyBind_error])

/-- Concrete well-formed report: one low vulnerability, one skippable
detection, one secret detection. -/
def c2GoodReport : Json :=
  .obj [("Vulnerabilities", .arr [.obj [("Vulnerability", .obj [("Details",
          .obj [("severity", .str "low")])])]]),
        ("Detections", .arr [.obj [("NoDetectionKey", .null)],
                             .obj [("Detection", .obj [("Type", .str "Secret")])]])]

/-- Witness for `evaluation_totality_amended`: the skip equation at a
concrete skippable record, and total evaluation of a concrete report
with a tolerable malformed detection. -/
theorem evaluation_totality_amended_witness :
    detectionSearch (fun t => t = "secret")
        ([.obj [("Detection", .obj [("Type", .str "Secret")])]] ++
          .obj [("NoDetectionKey", .null)] :: [])
      = detectionSearch (fun t => t = "secret")
          ([.obj [("Detection", .obj [("Type", .str "Secret")])]] ++ [])
    ∧ ((∃ a, get_alerts_vuln c2GoodReport = .ok a)
       ∧ (∃ b, get_alerts_malware c2GoodReport = .ok b)
       ∧ (∃ c, get_alerts_secrets c2GoodReport = .ok c)
       ∧ (∃ e, get_alerts_misconfig c2GoodReport = .ok e)) := by
  constructor
  · exact (evaluation_totality_amended c2GoodReport (.obj [("NoDetectionKey", .null)])
      [] [] [.obj [("Detection", .obj [("Type", .str "Secret")])]] []
      (fun t => t = "secret")).1 rfl
  · refine (evaluation_totality_amended c2GoodReport .null
      [.obj [("Vulnerability", .obj [("Details", .obj [("severity", .str "low")])])]]
      [.obj [("NoDetectionKey", .null)],
       .obj [("Detection", .obj [("Type", .str "Secret")])]]
      [] [] (fun t => t = "secret")).2.1 rfl rfl ?_ ?_
    · intro v hv
      simp only [List.mem_singleton] at hv
      subst hv
      exact ⟨20, rfl⟩
    · intro d hd
      simp only [List.mem_cons, List.mem_singleton] at hd
      rcases hd with h | h | h
      · subst h; exact Or.inl rfl
      · subst h; exact Or.inr ⟨"secret", rfl⟩
      · cases h

/-- Malware-typed detection used in the C8 scenario. -/
def c8dMal : Json := .obj [("Detection", .obj [("Type", .str "malware")])]

/-- Secret-typed detection used in the C8 scenario. -/
def c8dSec : Json := .obj [("Detection", .obj [("Type", .str "secret")])]

/-- Misconfiguration-typed detection used in the C8 scenario. -/
def c8dMis : Json := .obj [("Detection", .obj [("Type", .str "misconfiguration")])]

/-- Malformed detection (non-string `Type`) used in the C8 scenario. -/
def c8dBad : Json := .obj [("Detection", .obj [("Type", .num 5)])]

/-- Detection list with the misconfiguration record present. -/
def c8ds1 : List Json := [c8dMal, c8dSec, c8dMis, c8dBad]

/-- Detection list with the misconfiguration record absent. -/
def c8ds2 : List Json := [c8dMal, c8dSec, c8dBad]

/-- C8 scenario report with the misconfiguration record. -/
def c8r1 : Json := .obj [("Vulnerabilities", .arr []), ("Detections", .arr c8ds1)]

/-- C8 scenario report without the misconfiguration record. -/
def c8r2 : Json := .obj [("Vulnerabilities", .arr []), ("Detections", .arr c8ds2)]

/-- Counterexample to C8: two reports agreeing on vulnerabilities and on
every non-misconfiguration detection (the misconfiguration-type filter of
their detection lists is identical) exit with different codes, 3 against
10: the misconfiguration record makes the `get_alerts_misconfig` loop
break before reaching a malformed record, while without it the loop
reaches that record and the run dies to the catch-all handler. -/
theorem misconfig_independence_counterexample :
    getItem c8r1 "Vulnerabilities" = getItem c8r2 "Vulnerabilities"
    ∧ reportDetections c8r1 = .ok c8ds1
    ∧ reportDetections c8r2 = .ok c8ds2
    ∧ filterNonMisconfig c8ds1 = filterNonMisconfig c8ds2
    ∧ mainExit c8r1 500 = 3
    ∧ mainExit c8r2 500 = 10 :=
  ⟨rfl, rfl, rfl, by decide, by decide, by decide⟩

/-- C8 (amended): whenever both runs actually reach the Deciding step
(all four signal evaluations succeed, so no exception escapes to the
handlers), the exit code is independent of misconfiguration detections:
two reports with the same `Vulnerabilities` value whose detection lists
agree after erasing misconfiguration-typed records decide identically.
In particular a well-formed misconfiguration-only report with score
below threshold exits 0. -/
theorem misconfig_independence_amended (r1 r2 : Json) (ds1 ds2 : List Json)
    (score : Int) (code1 code2 : Nat)
    (hV : getItem r1 "Vulnerabilities" = getItem r2 "Vulnerabilities")
    (hd1 : reportDetections r1 = .ok ds1)
    (hd2 : reportDetections r2 = .ok ds2)
    (hf : filterNonMisconfig ds1 = filterNonMisconfig ds2)
    (h1 : mainExitCode r1 score = .ok code1)
    (h2 : mainExitCode r2 score = .ok code2) :
    code1 = code2 := by
  obtain ⟨v1, s1, m1, u1, hv1, hs1, hm1, hu1, hc1⟩ := mainExitCode_inv r1 score code1 h1
  obtain ⟨v2, s2, m2, u2, hv2, hs2, hm2, hu2, hc2⟩ := mainExitCode_inv r2 score code2 h2
  have hvulneq : get_alerts_vuln r1 = get_alerts_vuln r2 := by
    unfold get_alerts_vuln
    rw [hV]
  have hveq : v1 = v2 := by
    have h := hv1.symm.trans (hvulneq.trans hv2)
    exact Except.ok.inj h
  have hsearch : ∀ p : String → Bool, (∀ t, misconfigMatch t = true → p t = false) →
      detectionSearch p ds1 = detectionSearch p ds2 := by
    intro p hp
    rw [detectionSearch_filter_misconfig p hp ds1, hf,
      ← detectionSearch_filter_misconfig p hp ds2]
  have hpm : ∀ t, misconfigMatch t = true → (fun t => decide (t = "malware")) t = false := by
    intro t ht
    simp only [misconfigMatch, Bool.or_eq_true, decide_eq_true_eq] at ht
    rcases ht with h | h <;> subst h <;> decide
  have hps : ∀ t, misconfigMatch t = true → (fun t => decide (t = "secret")) t = false := by
    intro t ht
    simp only [misconfigMatch, Bool.or_eq_true, decide_eq_true_eq] at ht
    rcases ht with h | h <;> subst h <;> decide
  have hmaleq : get_alerts_malware r1 = get_alerts_malware r2 := by
    unfold get_alerts_malware
    rw [hd1, hd2, pyBind_ok, pyBind_ok, hsearch _ hpm]
  have hseceq : get_alerts_secrets r1 = get_alerts_secrets r2 := by
    unfold get_alerts_secrets
    rw [hd1, hd2, pyBind_ok, pyBind_ok, hsearch _ hps]
  have hmeq : m1 = m2 := by
    have h := hm1.symm.trans (hmaleq.trans hm2)
    exact Except.ok.inj h
  have hseq : s1 = s2 := by
    have h := hs1.symm.trans (hseceq.trans hs2)
    exact Except.ok.inj h
  rw [hc1, hc2, hveq, hmeq, hseq]

/-- Well-formed misconfiguration-only report. -/
def c8MisOnly : Json :=
  .obj [("Vulnerabilities", .arr []), ("Detections", .arr [c8dMis])]

/-- Well-formed report with no detections at all. -/
def c8NoDet : Json :=
  .obj [("Vulnerabilities", .arr []), ("Detections", .arr [])]

/-- Witness for `misconfig_independence_amended`: a misconfiguration-only
report decides exactly like the empty report — both exit 0 below the
threshold. -/
theorem misconfig_independence_amended_witness :
    mainExitCode c8MisOnly 500 = .ok 0
    ∧ mainExitCode c8NoDet 500 = .ok 0
    ∧ (0 : Nat) = 0 := by
  refine ⟨rfl, rfl, ?_⟩
  exact misconfig_independence_amended c8MisOnly c8NoDet [c8dMis] [] 500 0 0
    rfl rfl rfl (by decide) rfl rfl

/-- Reduction of a successful bind on `Option`. -/
theorem optBind_some {α β : Type} (a : α) (f : α → Option β) :
    (do let x ← some a; f x) = f a := rfl

/-- Reduction of a failed bind on `Option`. -/
theorem optBind_none {α β : Type} (f : α → Option β) :
    (do let x ← (none : Option α); f x) = (none : Option β) := rfl

/-- The opening brace character. -/
def lbrace : Char := Char.ofNat 123

/-- The closing brace character. -/
def rbrace : Char := Char.ofNat 125

/-- Lowercase hexadecimal digit, as Python's `%04x` formatting emits in
`\u` escapes. -/
def hexDigit (n : Nat) : Char :=
  if n < 10 then Char.ofNat (48 + n) else Char.ofNat (87 + n)

/-- Numeric value of a hexadecimal digit character, accepting both
cases, as Python's JSON scanner does. -/
def hexVal (c : Char) : Option Nat :=
  if 48 ≤ c.toNat ∧ c.toNat ≤ 57 then some (c.toNat - 48)
  else if 97 ≤ c.toNat ∧ c.toNat ≤ 102 then some (c.toNat - 87)
  else if 65 ≤ c.toNat ∧ c.toNat ≤ 70 then some (c.toNat - 55)
  else none

/-- ASCII decimal digit test. -/
def isDigitChar (c : Char) : Bool := 48 ≤ c.toNat && c.toNat ≤ 57

/-- JSON whitespace (space, newline, tab, carriage return). -/
def isWsChar (c : Char) : Bool :=
  c.toNat = 32 || c.toNat = 10 || c.toNat = 9 || c.toNat = 13

/-- Modelled from the spec: the character escaping of Python's
`json.dumps` with its default `ensure_ascii=True` (the export step of
`ScanReport.export` serializes with `json.dumps(self, indent=4)`; the
`json` module itself is standard-library code outside this repository).
Quote and backslash get two-character escapes, the five named control
characters their short forms, other characters outside `0x20..0x7e` a
`\u` escape — as a surrogate pair beyond the BMP. -/
def escapeChar (c : Char) : List Char :=
  if c = '"' then ['\\', '"']
  else if c = '\\' then ['\\', '\\']
  else if c = '\n' then ['\\', 'n']
  else if c = '\t' then ['\\', 't']
  else if c = '\r' then ['\\', 'r']
  else if c.toNat = 8 then ['\\', 'b']
  else if c.toNat = 12 then ['\\', 'f']
  else if 32 ≤ c.toNat ∧ c.toNat ≤ 126 then [c]
  else if c.toNat < 65536 then
    ['\\', 'u', hexDigit (c.toNat / 4096 % 16), hexDigit (c.toNat / 256 % 16),
     hexDigit (c.toNat / 16 % 16), hexDigit (c.toNat % 16)]
  else
    ['\\', 'u',
     hexDigit ((55296 + (c.toNat - 65536) / 1024) / 4096 % 16),
     hexDigit ((55296 + (c.toNat - 65536) / 1024) / 256 % 16),
     hexDigit ((55296 + (c.toNat - 65536) / 1024) / 16 % 16),
     hexDigit ((55296 + (c.toNat - 65536) / 1024) % 16),
     '\\', 'u',
     hexDigit ((56320 + (c.toNat - 65536) % 1024) / 4096 % 16),
     hexDigit ((56320 + (c.toNat - 65536) % 1024) / 256 % 16),
     hexDigit ((56320 + (c.toNat - 65536) % 1024) / 16 % 16),
     hexDigit ((56320 + (c.toNat - 65536) % 1024) % 16)]

/-- Escaping of a whole character sequence. -/
def escapeList : List Char → List Char
  | [] => []
  | c :: cs => escapeChar c ++ escapeList cs

/-- Decimal digits of a natural number, most significant first. -/
def natDigits (n : Nat) : List Char :=
  if h : n < 10 then [Char.ofNat (48 + n)]
  else natDigits (n / 10) ++ [Char.ofNat (48 + n % 10)]
decreasing_by exact Nat.div_lt_self (by omega) (by omega)

/-- Decimal representation of an integer, as Python prints `int`. -/
def intChars (n : Int) : List Char :=
  if n < 0 then '-' :: natDigits (-n).toNat else natDigits n.toNat

/-- The indentation emitted by `json.dumps(indent=4)` at nesting level
`lvl`. -/
def indentChars (lvl : Nat) : List Char := List.replicate (4 * lvl) ' '

mutual

/-- Modelled from the spec: the text `json.dumps(value, indent=4)`
produces for one JSON value at nesting level `lvl` (the serialization
`ScanReport.export` writes; the `json` module is standard-library code
outside this repository).  Empty containers print as two characters;
non-empty containers put each item on its own line, indented four spaces
per level, separated by commas, with `": "` between a key and its
value. -/
def dumpVal : Json → Nat → List Char
  | .null, _ => ['n', 'u', 'l', 'l']
  | .bool true, _ => ['t', 'r', 'u', 'e']
  | .bool false, _ => ['f', 'a', 'l', 's', 'e']
  | .num n, _ => intChars n
  | .str s, _ => '"' :: (escapeList s.data ++ ['"'])
  | .arr [], _ => ['[', ']']
  | .arr (x :: xs), lvl =>
      '[' :: '\n' :: (indentChars (lvl + 1) ++ dumpVal x (lvl + 1)
        ++ dumpItems xs (lvl + 1) ++ '\n' :: (indentChars lvl ++ [']']))
  | .obj [], _ => [lbrace, rbrace]
  | .obj (kv :: kvs), lvl =>
      lbrace :: '\n' :: (indentChars (lvl + 1) ++ dumpMember kv (lvl + 1)
        ++ dumpMembers kvs (lvl + 1) ++ '\n' :: (indentChars lvl ++ [rbrace]))

/-- One `"key": value` member of an object. -/
def dumpMember : String × Json → Nat → List Char
  | (k, v), lvl => '"' :: (escapeList k.data ++ '"' :: ':' :: ' ' :: dumpVal v lvl)

/-- The remaining items of a non-empty array, each preceded by a comma,
a newline and the indentation. -/
def dumpItems : List Json → Nat → List Char
  | [], _ => []
  | x :: xs, lvl =>
      ',' :: '\n' :: (indentChars lvl ++ dumpVal x lvl ++ dumpItems xs lvl)

/-- The remaining members of a non-empty object. -/
def dumpMembers : List (String × Json) → Nat → List Char
  | [], _ => []
  | kv :: kvs, lvl =>
      ',' :: '\n' :: (indentChars lvl ++ dumpMember kv lvl ++ dumpMembers kvs lvl)

end

/-- The file contents written by `ScanReport.export` (line 166):
`json.dumps(self, indent=4)`. -/
def exportContents (report : Json) : String := ⟨dumpVal report 0⟩

/-- Python dict insertion of one key/value pair: an existing key keeps
its position and takes the new value, a new key is appended. -/
def objInsert (fields : List (String × Json)) (kv : String × Json) :
    List (String × Json) :=
  if (fields.map Prod.fst).contains kv.1 then
    fields.map (fun p => if p.1 = kv.1 then (p.1, kv.2) else p)
  else fields ++ [kv]

/-- The dict a JSON object literal builds: pairs inserted left to right,
later duplicates overwriting earlier ones in place. -/
def dictFromPairs (pairs : List (String × Json)) : List (String × Json) :=
  pairs.foldl objInsert []

/-- Drop leading JSON whitespace. -/
def skipWs : List Char → List Char
  | [] => []
  | c :: rest => if isWsChar c then skipWs rest else c :: rest

/-- Consume a run of decimal digits, accumulating their value; stops at
the first non-digit. -/
def parseDigitsAux : List Char → Nat → Nat × List Char
  | [], acc => (acc, [])
  | c :: rest, acc =>
      if isDigitChar c then parseDigitsAux rest (acc * 10 + (c.toNat - 48))
      else (acc, c :: rest)

/-- Modelled from the spec: the string scanner of Python's `json.loads`
(the re-loading half of the export round trip; the `json` module is
standard-library code outside this repository), after the opening
quote. -/
def hex4 (c1 c2 c3 c4 : Char) : Option Nat :=
  match hexVal c1, hexVal c2, hexVal c3, hexVal c4 with
  | some h1, some h2, some h3, some h4 =>
      some (((h1 * 16 + h2) * 16 + h3) * 16 + h4)
  | _, _, _, _ => none

mutual

/-- Plain characters accumulate until the closing quote; a backslash
defers to the escape reader.  Raw control characters are accepted here
(Python's strict mode rejects them) — they are outside the image of the
serializer. -/
def parseStringBody : List Char → Option (List Char × List Char)
  | [] => none
  | c :: rest =>
    if c = '"' then some ([], rest)
    else if c = '\\' then parseEscape rest
    else (parseStringBody rest).map (fun pr => (c :: pr.1, pr.2))
termination_by l => l.length

/-- The character after a backslash: one of the short escapes, `/`, or a
`\u` escape. -/
def parseEscape : List Char → Option (List Char × List Char)
  | [] => none
  | e :: rest =>
    if e = '"' then (parseStringBody rest).map (fun pr => ('"' :: pr.1, pr.2))
    else if e = '\\' then (parseStringBody rest).map (fun pr => ('\\' :: pr.1, pr.2))
    else if e = '/' then (parseStringBody rest).map (fun pr => ('/' :: pr.1, pr.2))
    else if e = 'b' then (parseStringBody rest).map (fun pr => (Char.ofNat 8 :: pr.1, pr.2))
    else if e = 'f' then (parseStringBody rest).map (fun pr => (Char.ofNat 12 :: pr.1, pr.2))
    else if e = 'n' then (parseStringBody rest).map (fun pr => ('\n' :: pr.1, pr.2))
    else if e = 'r' then (parseStringBody rest).map (fun pr => ('\r' :: pr.1, pr.2))
    else if e = 't' then (parseStringBody rest).map (fun pr => ('\t' :: pr.1, pr.2))
    else if e = 'u' then parseUnicodeEscape rest
    else none
termination_by l => l.length

/-- Four hex digits after `\u`: a high surrogate must be followed by a
low surrogate escape, a lone low surrogate is rejected (Lean characters
are unicode scalar values; Python would build a lone surrogate — outside
the serializer's image), anything else is the character itself. -/
def parseUnicodeEscape : List Char → Option (List Char × List Char)
  | c1 :: c2 :: c3 :: c4 :: rest2 =>
    (hex4 c1 c2 c3 c4).bind (fun n =>
      if 55296 ≤ n ∧ n ≤ 56319 then parseLowSurrogate n rest2
      else if 56320 ≤ n ∧ n ≤ 57343 then none
      else (parseStringBody rest2).map (fun pr => (Char.ofNat n :: pr.1, pr.2)))
  | _ => none
termination_by l => l.length

/-- The low half of a surrogate pair, recombined with the pending high
half `n`. -/
def parseLowSurrogate (n : Nat) : List Char → Option (List Char × List Char)
  | b1 :: b2 :: d1 :: d2 :: d3 :: d4 :: rest3 =>
    if b1 = '\\' ∧ b2 = 'u' then
      (hex4 d1 d2 d3 d4).bind (fun m =>
        if 56320 ≤ m ∧ m ≤ 57343 then
          (parseStringBody rest3).map (fun pr =>
            (Char.ofNat (65536 + (n - 55296) * 1024 + (m - 56320)) :: pr.1, pr.2))
        else none)
    else none
  | _ => none
termination_by l => l.length

end

mutual

/-- Modelled from the spec: the recursive-descent value scanner of
Python's `json.loads` (the re-loading half of the export round trip),
fuelled for termination.  Dispatch after whitespace: numbers (integers
in this model — the reports this program evaluates carry no floats in
the model, and leading-zero forms Python rejects are accepted here),
strings, arrays, objects (built with dict insertion semantics), and the
three literals. -/
def parseValue : Nat → List Char → Option (Json × List Char)
  | 0, _ => none
  | fuel + 1, input =>
    match skipWs input with
    | [] => none
    | c :: r =>
      if isDigitChar c then
        some (.num ((parseDigitsAux r (c.toNat - 48)).1 : Int),
              (parseDigitsAux r (c.toNat - 48)).2)
      else if c = '-' then
        match r with
        | c2 :: r2 =>
          if isDigitChar c2 then
            some (.num (-((parseDigitsAux r2 (c2.toNat - 48)).1 : Int)),
                  (parseDigitsAux r2 (c2.toNat - 48)).2)
          else none
        | [] => none
      else if c = '"' then
        (parseStringBody r).map (fun pr => (.str ⟨pr.1⟩, pr.2))
      else if c = '[' then
        match skipWs r with
        | c2 :: r2 =>
          if c2 = ']' then some (.arr [], r2)
          else do
            let (v, r3) ← parseValue fuel (c2 :: r2)
            let (vs, r4) ← parseItems fuel r3
            some (.arr (v :: vs), r4)
        | [] => none
      else if c = lbrace then
        match skipWs r with
        | c2 :: r2 =>
          if c2 = rbrace then some (.obj [], r2)
          else if c2 = '"' then do
            let (kcs, r3) ← parseStringBody r2
            match skipWs r3 with
            | c3 :: r4 =>
              if c3 = ':' then do
                let (v, r5) ← parseValue fuel r4
                let (kvs, r6) ← parseMembers fuel r5
                some (.obj (dictFromPairs ((⟨kcs⟩, v) :: kvs)), r6)
              else none
            | [] => none
          else none
        | [] => none
      else if c = 'n' then
        match r with
        | 'u' :: 'l' :: 'l' :: r2 => some (.null, r2)
        | _ => none
      else if c = 't' then
        match r with
        | 'r' :: 'u' :: 'e' :: r2 => some (.bool true, r2)
        | _ => none
      else if c = 'f' then
        match r with
        | 'a' :: 'l' :: 's' :: 'e' :: r2 => some (.bool false, r2)
        | _ => none
      else none

/-- After the first item of an array: a comma continues with the next
value, a closing bracket finishes. -/
def parseItems : Nat → List Char → Option (List Json × List Char)
  | 0, _ => none
  | fuel + 1, input =>
    match skipWs input with
    | c :: r =>
      if c = ',' then do
        let (v, r2) ← parseValue fuel r
        let (vs, r3) ← parseItems fuel r2
        some (v :: vs, r3)
      else if c = ']' then some ([], r)
      else none
    | [] => none

/-- After the first member of an object: a comma continues with the next
`"key": value` pair, a closing brace finishes. -/
def parseMembers : Nat → List Char → Option (List (String × Json) × List Char)
  | 0, _ => none
  | fuel + 1, input =>
    match skipWs input with
    | c :: r =>
      if c = ',' then
        match skipWs r with
        | c2 :: r2 =>
          if c2 = '"' then do
            let (kcs, r3) ← parseStringBody r2
            match skipWs r3 with
            | c3 :: r4 =>
              if c3 = ':' then do
                let (v, r5) ← parseValue fuel r4
                let (kvs, r6) ← parseMembers fuel r5
                some ((⟨kcs⟩, v) :: kvs, r6)
              else none
            | [] => none
          else none
        | [] => none
      else if c = rbrace then some ([], r)
      else none
    | [] => none

end

/-- Modelled from the spec: `json.load` on the exported file — parse one
value, allow trailing whitespace only. -/
def jsonLoads (s : String) : Option Json :=
  match parseValue (s.length + 1) s.data with
  | some (j, rest) => if skipWs rest = [] then some j else none
  | none => none

/-- Key uniqueness of one field list (Python dicts cannot carry a key
twice, so every document produced by `resp.json()` satisfies it). -/
def nodupKeys : List (String × Json) → Bool
  | [] => true
  | (k, _) :: rest => !((rest.map Prod.fst).contains k) && nodupKeys rest

mutual

/-- Well-formedness of a document as a Python value: every object's keys
are pairwise distinct, recursively. -/
def jsonWF : Json → Bool
  | .null => true
  | .bool _ => true
  | .num _ => true
  | .str _ => true
  | .arr xs => jsonWFList xs
  | .obj kvs => nodupKeys kvs && jsonWFFields kvs

/-- Well-formedness of every element of a list. -/
def jsonWFList : List Json → Bool
  | [] => true
  | x :: xs => jsonWF x && jsonWFList xs

/-- Well-formedness of every value of a field list. -/
def jsonWFFields : List (String × Json) → Bool
  | [] => true
  | kv :: kvs => jsonWF kv.2 && jsonWFFields kvs

end

mutual

/-- Parser-fuel cost of one value. -/
def jsize : Json → Nat
  | .null => 1
  | .bool _ => 1
  | .num _ => 1
  | .str _ => 1
  | .arr xs => 1 + jsizeList xs
  | .obj kvs => 1 + jsizeFields kvs

/-- Parser-fuel cost of an item list. -/
def jsizeList : List Json → Nat
  | [] => 1
  | x :: xs => 1 + jsize x + jsizeList xs

/-- Parser-fuel cost of a member list. -/
def jsizeFields : List (String × Json) → Nat
  | [] => 1
  | kv :: kvs => 1 + jsize kv.2 + jsizeFields kvs

end

/-- Characters are equal exactly when their code points are. -/
theorem char_eq_iff_toNat (a b : Char) : a = b ↔ a.toNat = b.toNat := by
  constructor
  · intro h; rw [h]
  · intro h; exact Char.ext (UInt32.ext h)

/-- Every character's code point is a unicode scalar value. -/
theorem char_toNat_valid (c : Char) :
    c.toNat < 55296 ∨ (57343 < c.toNat ∧ c.toNat < 1114112) := by
  have h := c.valid
  unfold UInt32.isValidChar Nat.isValidChar at h
  exact h

/-- Code point of `Char.ofNat` at a valid scalar value. -/
theorem charToNat_ofNat (n : Nat)
    (h : n < 55296 ∨ (57343 < n ∧ n < 1114112)) : (Char.ofNat n).toNat = n := by
  have hv : n.isValidChar := by unfold Nat.isValidChar; omega
  unfold Char.ofNat
  rw [dif_pos hv]
  simp [Char.toNat, Char.ofNatAux, UInt32.toNat, UInt32.ofNat']

/-- `hexVal` reads back every digit `hexDigit` prints. -/
theorem hexVal_hexDigit (d : Nat) (h : d < 16) : hexVal (hexDigit d) = some d := by
  unfold hexDigit hexVal
  by_cases h10 : d < 10
  · rw [if_pos h10, charToNat_ofNat (48 + d) (by omega)]
    rw [if_pos (by omega)]
    simp only [Option.some.injEq]
    omega
  · rw [if_neg h10, charToNat_ofNat (87 + d) (by omega)]
    rw [if_neg (by omega), if_pos (by omega)]
    simp only [Option.some.injEq]
    omega

/-- Value accumulated by reading a digit run left to right. -/
def digitsVal (acc : Nat) : List Char → Nat
  | [] => acc
  | c :: cs => digitsVal (acc * 10 + (c.toNat - 48)) cs

/-- Continuations allowed after a printed number: empty input or a
non-digit first character (the greedy digit scan stops there). -/
def noDigitHead : List Char → Prop
  | [] => True
  | c :: _ => isDigitChar c = false

theorem digitsVal_nil (acc : Nat) : digitsVal acc [] = acc := rfl

theorem digitsVal_cons (acc : Nat) (c : Char) (cs : List Char) :
    digitsVal acc (c :: cs) = digitsVal (acc * 10 + (c.toNat - 48)) cs := rfl

theorem digitsVal_append (xs : List Char) :
    ∀ (acc : Nat) (ys : List Char),
      digitsVal acc (xs ++ ys) = digitsVal (digitsVal acc xs) ys := by
  induction xs with
  | nil => intro acc ys; rfl
  | cons c cs ih =>
      intro acc ys
      rw [List.cons_append, digitsVal_cons, digitsVal_cons]
      exact ih (acc * 10 + (c.toNat - 48)) ys

theorem parseDigitsAux_cons (acc : Nat) (c : Char) (r : List Char) :
    parseDigitsAux (c :: r) acc =
      if isDigitChar c then parseDigitsAux r (acc * 10 + (c.toNat - 48))
      else (acc, c :: r) := rfl

theorem parseDigitsAux_append (ds : List Char) :
    ∀ (rest : List Char) (acc : Nat),
      (∀ c ∈ ds, isDigitChar c = true) → noDigitHead rest →
      parseDigitsAux (ds ++ rest) acc = (digitsVal acc ds, rest) := by
  induction ds with
  | nil =>
      intro rest acc _ hrest
      cases rest with
      | nil => rfl
      | cons c r =>
        show parseDigitsAux (c :: r) acc = (digitsVal acc [], c :: r)
        rw [parseDigitsAux_cons]
        rw [if_neg (by simp only [noDigitHead] at hrest; simp [hrest])]
        rfl
  | cons d ds ih =>
      intro rest acc hds hrest
      rw [List.cons_append, parseDigitsAux_cons, if_pos (hds d (by simp)),
        digitsVal_cons]
      exact ih rest (acc * 10 + (d.toNat - 48)) (fun c hc => hds c (by simp [hc])) hrest

/-- Every character `natDigits` prints is a decimal digit. -/
theorem natDigits_all (n : Nat) : ∀ c ∈ natDigits n, isDigitChar c = true := by
  induction n using Nat.strong_induction_on with
  | _ n ih =>
    rw [natDigits]
    by_cases h : n < 10
    · rw [dif_pos h]
      intro c hc
      simp only [List.mem_singleton] at hc
      subst hc
      simp only [isDigitChar, charToNat_ofNat (48 + n) (by omega),
        Bool.and_eq_true, decide_eq_true_eq]
      omega
    · rw [dif_neg h]
      intro c hc
      rw [List.mem_append] at hc
      rcases hc with hc | hc
      · exact ih (n / 10) (Nat.div_lt_self (by omega) (by omega)) c hc
      · simp only [List.mem_singleton] at hc
        subst hc
        simp only [isDigitChar, charToNat_ofNat (48 + n % 10) (by omega),
          Bool.and_eq_true, decide_eq_true_eq]
        omega

/-- `natDigits` is never empty and starts with a digit. -/
theorem natDigits_head (n : Nat) :
    ∃ d ds, natDigits n = d :: ds ∧ isDigitChar d = true := by
  induction n using Nat.strong_induction_on with
  | _ n ih =>
    rw [natDigits]
    by_cases h : n < 10
    · rw [dif_pos h]
      refine ⟨Char.ofNat (48 + n), [], rfl, ?_⟩
      simp only [isDigitChar, charToNat_ofNat (48 + n) (by omega),
        Bool.and_eq_true, decide_eq_true_eq]
      omega
    · rw [dif_neg h]
      obtain ⟨d, ds, hds, hd⟩ := ih (n / 10) (Nat.div_lt_self (by omega) (by omega))
      exact ⟨d, ds ++ [Char.ofNat (48 + n % 10)], by rw [hds]; rfl, hd⟩

/-- Reading back the digits of `n` from accumulator `acc`. -/
theorem digitsVal_natDigits (n : Nat) :
    ∀ acc : Nat, digitsVal acc (natDigits n)
      = acc * 10 ^ (natDigits n).length + n := by
  induction n using Nat.strong_induction_on with
  | _ n ih =>
    intro acc
    rw [natDigits]
    by_cases h : n < 10
    · rw [dif_pos h]
      rw [digitsVal_cons, digitsVal_nil, List.length_singleton, pow_one]
      rw [charToNat_ofNat (48 + n) (by omega)]
      omega
    · rw [dif_neg h]
      rw [digitsVal_append, List.length_append, List.length_singleton]
      rw [ih (n / 10) (Nat.div_lt_self (by omega) (by omega)) acc]
      rw [digitsVal_cons, digitsVal_nil]
      rw [charToNat_ofNat (48 + n % 10) (by omega)]
      have hmod : 48 + n % 10 - 48 = n % 10 := by omega
      rw [hmod, pow_succ]
      have hdm := Nat.div_add_mod n 10
      generalize (10 : Nat) ^ (natDigits (n / 10)).length = L
      calc (acc * L + n / 10) * 10 + n % 10
          = acc * (L * 10) + ((n / 10) * 10 + n % 10) := by ring
        _ = acc * (L * 10) + n := by omega

theorem hex4_hexDigit (a b c d : Nat) (ha : a < 16) (hb : b < 16)
    (hc : c < 16) (hd : d < 16) :
    hex4 (hexDigit a) (hexDigit b) (hexDigit c) (hexDigit d)
      = some (((a * 16 + b) * 16 + c) * 16 + d) := by
  unfold hex4
  rw [hexVal_hexDigit a ha, hexVal_hexDigit b hb, hexVal_hexDigit c hc,
    hexVal_hexDigit d hd]


theorem parseStringBody_nil : parseStringBody [] = none := by
  rw [parseStringBody]

theorem parseStringBody_cons (c : Char) (rest : List Char) :
    parseStringBody (c :: rest)
      = if c = '"' then some ([], rest)
        else if c = '\\' then parseEscape rest
        else (parseStringBody rest).map (fun pr => (c :: pr.1, pr.2)) := by
  rw [parseStringBody]

theorem parseEscape_cons (e : Char) (rest : List Char) :
    parseEscape (e :: rest)
      = if e = '"' then (parseStringBody rest).map (fun pr => ('"' :: pr.1, pr.2))
        else if e = '\\' then (parseStringBody rest).map (fun pr => ('\\' :: pr.1, pr.2))
        else if e = '/' then (parseStringBody rest).map (fun pr => ('/' :: pr.1, pr.2))
        else if e = 'b' then (parseStringBody rest).map (fun pr => (Char.ofNat 8 :: pr.1, pr.2))
        else if e = 'f' then (parseStringBody rest).map (fun pr => (Char.ofNat 12 :: pr.1, pr.2))
        else if e = 'n' then (parseStringBody rest).map (fun pr => ('\n' :: pr.1, pr.2))
        else if e = 'r' then (parseStringBody rest).map (fun pr => ('\r' :: pr.1, pr.2))
        else if e = 't' then (parseStringBody rest).map (fun pr => ('\t' :: pr.1, pr.2))
        else if e = 'u' then parseUnicodeEscape rest
        else none := by
  rw [parseEscape]

theorem parseUnicodeEscape_cons (c1 c2 c3 c4 : Char) (rest2 : List Char) :
    parseUnicodeEscape (c1 :: c2 :: c3 :: c4 :: rest2)
      = (hex4 c1 c2 c3 c4).bind (fun n =>
          if 55296 ≤ n ∧ n ≤ 56319 then parseLowSurrogate n rest2
          else if 56320 ≤ n ∧ n ≤ 57343 then none
          else (parseStringBody rest2).map (fun pr => (Char.ofNat n :: pr.1, pr.2))) := by
  rw [parseUnicodeEscape]

theorem parseLowSurrogate_cons (n : Nat) (b1 b2 d1 d2 d3 d4 : Char)
    (rest3 : List Char) :
    parseLowSurrogate n (b1 :: b2 :: d1 :: d2 :: d3 :: d4 :: rest3)
      = if b1 = '\\' ∧ b2 = 'u' then
          (hex4 d1 d2 d3 d4).bind (fun m =>
            if 56320 ≤ m ∧ m ≤ 57343 then
              (parseStringBody rest3).map (fun pr =>
                (Char.ofNat (65536 + (n - 55296) * 1024 + (m - 56320)) :: pr.1, pr.2))
            else none)
        else none := by
  rw [parseLowSurrogate]

/-- Reassembling a value below `2^16` from its four hex digits. -/
theorem hexRecombine (n : Nat) (h : n < 65536) :
    ((n / 4096 % 16 * 16 + n / 256 % 16) * 16 + n / 16 % 16) * 16 + n % 16 = n := by
  have e1 : n / 256 / 16 = n / 4096 := by
    rw [Nat.div_div_eq_div_mul]
  have e2 : n / 16 / 16 = n / 256 := by
    rw [Nat.div_div_eq_div_mul]
  have e3 : n / 4096 / 16 = n / 65536 := by
    rw [Nat.div_div_eq_div_mul]
  have e4 : n / 65536 = 0 := Nat.div_eq_of_lt h
  omega

/-- Each escaped character parses back to itself, handing the rest of
the input to the surrounding string scan. -/
theorem escapeChar_parse (c : Char) (tail : List Char) :
    parseStringBody (escapeChar c ++ tail)
      = (parseStringBody tail).map (fun pr => (c :: pr.1, pr.2)) := by
  unfold escapeChar
  split_ifs with h1 h2 h3 h4 h5 h6 h7 h8 h9
  · subst h1
    simp only [List.cons_append, List.nil_append]
    rw [parseStringBody_cons]; simp
    rw [parseEscape_cons]; simp
  · subst h2
    simp only [List.cons_append, List.nil_append]
    rw [parseStringBody_cons]; simp
    rw [parseEscape_cons]; simp
  · subst h3
    simp only [List.cons_append, List.nil_append]
    rw [parseStringBody_cons]; simp
    rw [parseEscape_cons]; simp
  · subst h4
    simp only [List.cons_append, List.nil_append]
    rw [parseStringBody_cons]; simp
    rw [parseEscape_cons]; simp
  · subst h5
    simp only [List.cons_append, List.nil_append]
    rw [parseStringBody_cons]; simp
    rw [parseEscape_cons]; simp
  · have hc : c = Char.ofNat 8 := by
      rw [char_eq_iff_toNat, h6, charToNat_ofNat 8 (by omega)]
    simp only [List.cons_append, List.nil_append]
    rw [parseStringBody_cons]; simp
    rw [parseEscape_cons]; simp [hc]
  · have hc : c = Char.ofNat 12 := by
      rw [char_eq_iff_toNat, h7, charToNat_ofNat 12 (by omega)]
    simp only [List.cons_append, List.nil_append]
    rw [parseStringBody_cons]; simp
    rw [parseEscape_cons]; simp [hc]
  · simp only [List.cons_append, List.nil_append]
    rw [parseStringBody_cons, if_neg h1, if_neg h2]
  · simp only [List.cons_append, List.nil_append]
    rw [parseStringBody_cons]; simp
    rw [parseEscape_cons]; simp
    rw [parseUnicodeEscape_cons]
    rw [hex4_hexDigit _ _ _ _ (Nat.mod_lt _ (by omega)) (Nat.mod_lt _ (by omega))
      (Nat.mod_lt _ (by omega)) (Nat.mod_lt _ (by omega))]
    rw [hexRecombine c.toNat h9]
    have hval := char_toNat_valid c
    rw [Option.some_bind]
    rw [if_neg (show ¬(55296 ≤ c.toNat ∧ c.toNat ≤ 56319) by omega),
      if_neg (show ¬(56320 ≤ c.toNat ∧ c.toNat ≤ 57343) by omega)]
    rw [Char.ofNat_toNat]
  · simp only [List.cons_append, List.nil_append]
    rw [parseStringBody_cons]; simp
    rw [parseEscape_cons]; simp
    rw [parseUnicodeEscape_cons]
    rw [hex4_hexDigit _ _ _ _ (Nat.mod_lt _ (by omega)) (Nat.mod_lt _ (by omega))
      (Nat.mod_lt _ (by omega)) (Nat.mod_lt _ (by omega))]
    have hval := char_toNat_valid c
    have hge : 65536 ≤ c.toNat := by omega
    have hlt : c.toNat < 1114112 := by omega
    have hhiBound : (c.toNat - 65536) / 1024 ≤ 1023 := by omega
    rw [hexRecombine (55296 + (c.toNat - 65536) / 1024) (by omega)]
    rw [Option.some_bind]
    rw [if_pos (show 55296 ≤ 55296 + (c.toNat - 65536) / 1024 ∧
      55296 + (c.toNat - 65536) / 1024 ≤ 56319 by omega)]
    rw [parseLowSurrogate_cons]
    rw [if_pos ⟨rfl, rfl⟩]
    rw [hex4_hexDigit _ _ _ _ (Nat.mod_lt _ (by omega)) (Nat.mod_lt _ (by omega))
      (Nat.mod_lt _ (by omega)) (Nat.mod_lt _ (by omega))]
    rw [hexRecombine (56320 + (c.toNat - 65536) % 1024) (by omega)]
    rw [Option.some_bind]
    rw [if_pos (show 56320 ≤ 56320 + (c.toNat - 65536) % 1024 ∧
      56320 + (c.toNat - 65536) % 1024 ≤ 57343 by omega)]
    have hfinal : 65536 + (55296 + (c.toNat - 65536) / 1024 - 55296) * 1024
        + (56320 + (c.toNat - 65536) % 1024 - 56320) = c.toNat := by omega
    rw [hfinal, Char.ofNat_toNat]

/-- A whole escaped character sequence followed by the closing quote
parses back to the original sequence. -/
theorem escapeList_parse :
    ∀ (cs rest : List Char),
      parseStringBody (escapeList cs ++ '"' :: rest) = some (cs, rest)
  | [], rest => by
      simp only [escapeList, List.nil_append]
      rw [parseStringBody_cons]
      simp
  | c :: cs, rest => by
      simp only [escapeList, List.append_assoc]
      rw [escapeChar_parse c, escapeList_parse cs rest]
      rfl

/-- Lists consisting of JSON whitespace only. -/
def wsOnly (l : List Char) : Prop := ∀ c ∈ l, isWsChar c = true

theorem skipWs_cons (c : Char) (r : List Char) :
    skipWs (c :: r) = if isWsChar c then skipWs r else c :: r := rfl

theorem skipWs_not (c : Char) (r : List Char) (h : isWsChar c = false) :
    skipWs (c :: r) = c :: r := by
  rw [skipWs_cons, h]
  simp

theorem skipWs_ws_append (l : List Char) :
    ∀ r : List Char, wsOnly l → skipWs (l ++ r) = skipWs r := by
  induction l with
  | nil => intro r _; rfl
  | cons c cs ih =>
      intro r h
      rw [List.cons_append, skipWs_cons, h c (by simp), if_pos rfl]
      exact ih r (fun x hx => h x (by simp [hx]))

theorem wsOnly_nil : wsOnly [] := by intro c hc; cases hc

theorem wsOnly_indent (lvl : Nat) : wsOnly (indentChars lvl) := by
  intro c hc
  rw [indentChars] at hc
  rw [List.eq_of_mem_replicate hc]
  decide

theorem wsOnly_nl_indent (lvl : Nat) : wsOnly ('\n' :: indentChars lvl) := by
  intro c hc
  rcases List.mem_cons.mp hc with h | h
  · subst h; decide
  · exact wsOnly_indent lvl c h

theorem wsOnly_space : wsOnly [' '] := by
  intro c hc
  simp only [List.mem_singleton] at hc
  subst hc
  decide

/-- A digit character is not whitespace. -/
theorem digit_not_ws (c : Char) (h : isDigitChar c = true) : isWsChar c = false := by
  simp only [isDigitChar, Bool.and_eq_true, decide_eq_true_eq] at h
  simp only [isWsChar, Bool.or_eq_false_iff, decide_eq_false_iff_not]
  omega


/-- A digit character is none of the structural characters. -/
theorem digit_ne_brackets (c : Char) (h : isDigitChar c = true) :
    c ≠ ']' ∧ c ≠ rbrace ∧ c ≠ ',' := by
  simp only [isDigitChar, Bool.and_eq_true, decide_eq_true_eq] at h
  have h93 : (']' : Char).toNat = 93 := rfl
  have h125 : rbrace.toNat = 125 := rfl
  have h44 : ((',' : Char)).toNat = 44 := rfl
  refine ⟨?_, ?_, ?_⟩ <;> intro he <;> rw [char_eq_iff_toNat] at he <;> omega

/-- Rebuilding a string from its character data. -/
theorem stringMk_data (s : String) : String.mk s.data = s := by
  cases s
  rfl

theorem contains_eq_decide_mem (l : List String) (a : String) :
    l.contains a = decide (a ∈ l) := by
  rw [show l.contains a = l.elem a from rfl, List.elem_eq_mem]

theorem foldl_objInsert (kvs : List (String × Json)) :
    ∀ acc : List (String × Json), nodupKeys kvs = true →
      (∀ p ∈ kvs, p.1 ∉ acc.map Prod.fst) →
      List.foldl objInsert acc kvs = acc ++ kvs := by
  induction kvs with
  | nil => intro acc _ _; simp
  | cons kv kvs ih =>
      intro acc hnd hdisj
      obtain ⟨k, v⟩ := kv
      rw [List.foldl_cons]
      have hins : objInsert acc (k, v) = acc ++ [(k, v)] := by
        unfold objInsert
        rw [if_neg ?_]
        rw [contains_eq_decide_mem]
        simp only [decide_eq_true_eq]
        exact hdisj (k, v) (by simp)
      rw [hins]
      rw [nodupKeys] at hnd
      simp only [Bool.and_eq_true, Bool.not_eq_true'] at hnd
      rw [ih (acc ++ [(k, v)]) hnd.2 ?_]
      · simp
      · intro p hp
        simp only [List.map_append, List.map_cons, List.map_nil, List.mem_append,
          List.mem_singleton, not_or]
        refine ⟨hdisj p (by simp [hp]), ?_⟩
        intro he
        have hmem : p.1 ∈ kvs.map Prod.fst := List.mem_map_of_mem Prod.fst hp
        rw [he] at hmem
        have h1 := hnd.1
        rw [contains_eq_decide_mem] at h1
        simp only [decide_eq_false_iff_not] at h1
        exact h1 hmem

theorem dictFromPairs_nodup (kvs : List (String × Json))
    (h : nodupKeys kvs = true) : dictFromPairs kvs = kvs := by
  unfold dictFromPairs
  rw [foldl_objInsert kvs [] h (by intro p hp; simp)]
  simp

/-- The printed form of a value is nonempty, starts with a non-blank
character, and never starts with a closing bracket. -/
theorem dumpVal_head (j : Json) (lvl : Nat) :
    ∃ c cs, dumpVal j lvl = c :: cs ∧ isWsChar c = false ∧ c ≠ ']' ∧ c ≠ rbrace := by
  cases j with
  | null => exact ⟨'n', ['u', 'l', 'l'], by rw [dumpVal], by decide, by decide, by decide⟩
  | bool b =>
      cases b with
      | true => exact ⟨'t', ['r', 'u', 'e'], by rw [dumpVal], by decide, by decide, by decide⟩
      | false => exact ⟨'f', ['a', 'l', 's', 'e'], by rw [dumpVal], by decide, by decide, by decide⟩
  | num n =>
      by_cases hn : n < 0
      · refine ⟨'-', natDigits (-n).toNat, ?_, by decide, by decide, by decide⟩
        rw [dumpVal]
        unfold intChars
        rw [if_pos hn]
      · obtain ⟨d, ds, hds, hd⟩ := natDigits_head n.toNat
        obtain ⟨hb1, hb2, _⟩ := digit_ne_brackets d hd
        refine ⟨d, ds, ?_, digit_not_ws d hd, hb1, hb2⟩
        rw [dumpVal]
        unfold intChars
        rw [if_neg hn, hds]
  | str s =>
      exact ⟨'"', escapeList s.data ++ ['"'], by rw [dumpVal], by decide, by decide, by decide⟩
  | arr xs =>
      cases xs with
      | nil => exact ⟨'[', [']'], by rw [dumpVal], by decide, by decide, by decide⟩
      | cons x xs =>
          refine ⟨'[', '\n' :: (indentChars (lvl + 1) ++ dumpVal x (lvl + 1)
            ++ dumpItems xs (lvl + 1) ++ '\n' :: (indentChars lvl ++ [']'])),
            ?_, by decide, by decide, by decide⟩
          rw [dumpVal]
  | obj kvs =>
      cases kvs with
      | nil => exact ⟨lbrace, [rbrace], by rw [dumpVal], by decide, by decide, by decide⟩
      | cons kv kvs =>
          refine ⟨lbrace, '\n' :: (indentChars (lvl + 1) ++ dumpMember kv (lvl + 1)
            ++ dumpMembers kvs (lvl + 1) ++ '\n' :: (indentChars lvl ++ [rbrace])),
            ?_, by decide, by decide, by decide⟩
          rw [dumpVal]

/-- What follows a printed array item never starts with a digit. -/
theorem dumpItems_noDigit (xs : List Json) (lvl : Nat) (tail : List Char) :
    noDigitHead (dumpItems xs lvl ++ '\n' :: tail) := by
  cases xs with
  | nil =>
      rw [dumpItems]
      simp only [List.nil_append]
      show isDigitChar '\n' = false
      decide
  | cons x xs =>
      rw [dumpItems]
      simp only [List.cons_append]
      show isDigitChar ',' = false
      decide

/-- What follows a printed object member never starts with a digit. -/
theorem dumpMembers_noDigit (kvs : List (String × Json)) (lvl : Nat) (tail : List Char) :
    noDigitHead (dumpMembers kvs lvl ++ '\n' :: tail) := by
  cases kvs with
  | nil =>
      rw [dumpMembers]
      simp only [List.nil_append]
      show isDigitChar '\n' = false
      decide
  | cons kv kvs =>
      rw [dumpMembers]
      simp only [List.cons_append]
      show isDigitChar ',' = false
      decide

/-- Every value has positive parser cost. -/
theorem jsize_pos (j : Json) : 1 ≤ jsize j := by
  cases j <;> rw [jsize] <;> omega

/-- The digit run of `natDigits` evaluates back to its number. -/
theorem digitsVal_head_natDigits (m : Nat) (d : Char) (ds : List Char)
    (h : natDigits m = d :: ds) : digitsVal (d.toNat - 48) ds = m := by
  have h0 := digitsVal_natDigits m 0
  rw [h, digitsVal_cons] at h0
  simpa using h0

/-- Item lists and member lists have positive parser cost. -/
theorem jsizeList_pos (xs : List Json) : 1 ≤ jsizeList xs := by
  cases xs <;> rw [jsizeList] <;> omega

theorem jsizeFields_pos (kvs : List (String × Json)) : 1 ≤ jsizeFields kvs := by
  cases kvs <;> rw [jsizeFields] <;> omega

/-- Skipping the newline-plus-indentation the printer emits. -/
theorem skipWs_nl_indent_append (lvl : Nat) (r : List Char) :
    skipWs ('\n' :: (indentChars lvl ++ r)) = skipWs r := by
  rw [show '\n' :: (indentChars lvl ++ r) = ('\n' :: indentChars lvl) ++ r from rfl]
  exact skipWs_ws_append _ _ (wsOnly_nl_indent lvl)

mutual

/-- Parsing back a printed value: whatever whitespace precedes it and
whatever non-digit continuation follows it, the scanner returns exactly
the value and the continuation. -/
theorem parse_dumpVal : ∀ (j : Json) (fuel lvl : Nat) (pre rest : List Char),
    jsize j ≤ fuel → jsonWF j = true → wsOnly pre → noDigitHead rest →
    parseValue fuel (pre ++ (dumpVal j lvl ++ rest)) = some (j, rest)
  | j, 0, _, _, _ => by
      intro hsz _ _ _
      have := jsize_pos j
      omega
  | .null, fuel + 1, lvl, pre, rest => by
      intro _ _ hpre _
      rw [parseValue, skipWs_ws_append pre _ hpre, dumpVal]
      simp only [List.cons_append, List.nil_append]
      rw [skipWs_not _ _ (by decide)]
      simp [show isDigitChar 'n' = false from by decide,
        show ('n' = lbrace) = False from eq_false (by decide)]
  | .bool true, fuel + 1, lvl, pre, rest => by
      intro _ _ hpre _
      rw [parseValue, skipWs_ws_append pre _ hpre, dumpVal]
      simp only [List.cons_append, List.nil_append]
      rw [skipWs_not _ _ (by decide)]
      simp [show isDigitChar 't' = false from by decide,
        show ('t' = lbrace) = False from eq_false (by decide)]
  | .bool false, fuel + 1, lvl, pre, rest => by
      intro _ _ hpre _
      rw [parseValue, skipWs_ws_append pre _ hpre, dumpVal]
      simp only [List.cons_append, List.nil_append]
      rw [skipWs_not _ _ (by decide)]
      simp [show isDigitChar 'f' = false from by decide,
        show ('f' = lbrace) = False from eq_false (by decide)]
  | .num n, fuel + 1, lvl, pre, rest => by
      intro _ _ hpre hrest
      rw [parseValue, skipWs_ws_append pre _ hpre, dumpVal]
      unfold intChars
      by_cases hn : n < 0
      · rw [if_pos hn]
        obtain ⟨d, ds, hds, hd⟩ := natDigits_head (-n).toNat
        rw [hds]
        simp only [List.cons_append]
        rw [skipWs_not _ _ (by decide)]
        simp only [show isDigitChar '-' = false from by decide, Bool.false_eq_true,
          if_false, reduceIte]
        have hall := natDigits_all (-n).toNat
        rw [hds] at hall
        rw [hd]
        simp only [if_true]
        rw [parseDigitsAux_append ds rest (d.toNat - 48)
          (fun c hc => hall c (by simp [hc])) hrest]
        rw [digitsVal_head_natDigits (-n).toNat d ds hds]
        simp only [Option.some.injEq, Prod.mk.injEq, Json.num.injEq]
        refine ⟨?_, trivial⟩
        rw [Int.toNat_of_nonneg (by omega)]
        omega
      · rw [if_neg hn]
        obtain ⟨d, ds, hds, hd⟩ := natDigits_head n.toNat
        rw [hds]
        simp only [List.cons_append]
        rw [skipWs_not _ _ (digit_not_ws d hd)]
        simp only [hd, if_true]
        have hall := natDigits_all n.toNat
        rw [hds] at hall
        rw [parseDigitsAux_append ds rest (d.toNat - 48)
          (fun c hc => hall c (by simp [hc])) hrest]
        rw [digitsVal_head_natDigits n.toNat d ds hds]
        simp only [Option.some.injEq, Prod.mk.injEq, Json.num.injEq]
        refine ⟨?_, trivial⟩
        rw [Int.toNat_of_nonneg (by omega)]
  | .str s, fuel + 1, lvl, pre, rest => by
      intro _ _ hpre _
      rw [parseValue, skipWs_ws_append pre _ hpre, dumpVal]
      simp only [List.cons_append, List.append_assoc]
      rw [skipWs_not _ _ (by decide)]
      simp only [List.singleton_append]
      simp [show isDigitChar '"' = false from by decide,
        show ('"' = lbrace) = False from eq_false (by decide)]
      rw [escapeList_parse s.data rest]
      simp [stringMk_data]
  | .arr [], fuel + 1, lvl, pre, rest => by
      intro _ _ hpre _
      rw [parseValue, skipWs_ws_append pre _ hpre, dumpVal]
      simp only [List.cons_append, List.nil_append]
      rw [skipWs_not _ _ (by decide)]
      simp [show isDigitChar '[' = false from by decide,
        show ('[' = lbrace) = False from eq_false (by decide)]
      rw [skipWs_not _ _ (by decide)]
      simp
  | .arr (x :: xs), fuel + 1, lvl, pre, rest => by
      intro hsz hwf hpre _
      rw [parseValue, skipWs_ws_append pre _ hpre, dumpVal]
      simp only [List.cons_append, List.append_assoc, List.nil_append]
      rw [skipWs_not _ _ (by decide)]
      simp only [show isDigitChar '[' = false from by decide, Bool.false_eq_true, if_false,
        show ('[' = '-') = False from eq_false (by decide),
        show ('[' = '"') = False from eq_false (by decide),
        show ('[' = lbrace) = False from eq_false (by decide),
        show ('[' = 'n') = False from eq_false (by decide),
        show ('[' = 't') = False from eq_false (by decide),
        show ('[' = 'f') = False from eq_false (by decide),
        show ('[' = '[') = True from eq_true rfl, if_true]
      rw [skipWs_nl_indent_append]
      obtain ⟨c, cs, hdump, hcws, hcbr, _⟩ := dumpVal_head x (lvl + 1)
      rw [hdump]
      simp only [List.cons_append]
      rw [skipWs_not _ _ hcws]
      simp only [if_neg hcbr]
      rw [jsize, jsizeList] at hsz
      have hpx := jsize_pos x
      have hpxs := jsizeList_pos xs
      rw [jsonWF, jsonWFList] at hwf
      simp only [Bool.and_eq_true] at hwf
      have hx := parse_dumpVal x fuel (lvl + 1) []
        (dumpItems xs (lvl + 1) ++ '\n' :: (indentChars lvl ++ ']' :: rest))
        (by omega) hwf.1 wsOnly_nil (dumpItems_noDigit xs (lvl + 1) _)
      rw [List.nil_append, hdump, List.cons_append] at hx
      rw [hx, optBind_some]
      rw [parse_dumpItems xs fuel (lvl + 1) lvl rest (by omega) hwf.2, optBind_some]
  | .obj [], fuel + 1, lvl, pre, rest => by
      intro _ _ hpre _
      rw [parseValue, skipWs_ws_append pre _ hpre, dumpVal]
      simp only [List.cons_append, List.nil_append]
      rw [skipWs_not _ _ (by decide)]
      simp [show isDigitChar lbrace = false from by decide,
        show (lbrace = '[') = False from eq_false (by decide),
        show (lbrace = '-') = False from eq_false (by decide),
        show (lbrace = '"') = False from eq_false (by decide)]
      rw [skipWs_not _ _ (by decide)]
      simp [show (rbrace = '"') = False from eq_false (by decide)]
  | .obj ((k, v) :: kvs), fuel + 1, lvl, pre, rest => by
      intro hsz hwf hpre _
      rw [parseValue, skipWs_ws_append pre _ hpre, dumpVal, dumpMember]
      simp only [List.cons_append, List.append_assoc, List.nil_append]
      rw [skipWs_not _ _ (by decide)]
      simp only [show isDigitChar lbrace = false from by decide, Bool.false_eq_true,
        if_false,
        show (lbrace = '-') = False from eq_false (by decide),
        show (lbrace = '"') = False from eq_false (by decide),
        show (lbrace = '[') = False from eq_false (by decide),
        show (lbrace = 'n') = False from eq_false (by decide),
        show (lbrace = 't') = False from eq_false (by decide),
        show (lbrace = 'f') = False from eq_false (by decide),
        show (lbrace = lbrace) = True from eq_true rfl, if_true]
      rw [skipWs_nl_indent_append]
      rw [skipWs_not _ _ (by decide)]
      simp only [show ('"' = rbrace) = False from eq_false (by decide), if_false,
        show ('"' = '"') = True from eq_true rfl, if_true, Bool.false_eq_true]
      rw [escapeList_parse k.data _, optBind_some]
      rw [skipWs_not _ _ (by decide)]
      simp only [show (':' = ':') = True from eq_true rfl, if_true]
      rw [jsize, jsizeFields] at hsz
      have hsz2 : 1 + (1 + jsize v + jsizeFields kvs) ≤ fuel + 1 := by simpa using hsz
      have hpv := jsize_pos v
      have hpk := jsizeFields_pos kvs
      rw [jsonWF] at hwf
      simp only [Bool.and_eq_true] at hwf
      have hwff := hwf.2
      rw [jsonWFFields] at hwff
      simp only [Bool.and_eq_true] at hwff
      have hv := parse_dumpVal v fuel (lvl + 1) [' ']
        (dumpMembers kvs (lvl + 1) ++ '\n' :: (indentChars lvl ++ rbrace :: rest))
        (by omega) hwff.1 wsOnly_space (dumpMembers_noDigit kvs (lvl + 1) _)
      rw [List.singleton_append] at hv
      rw [hv, optBind_some]
      rw [parse_dumpMembers kvs fuel (lvl + 1) lvl rest (by omega) hwff.2, optBind_some]
      rw [stringMk_data, dictFromPairs_nodup _ hwf.1]

/-- Parsing back the printed remainder of an array after its first item. -/
theorem parse_dumpItems : ∀ (xs : List Json) (fuel lvl lvl2 : Nat) (rest : List Char),
    jsizeList xs ≤ fuel → jsonWFList xs = true →
    parseItems fuel (dumpItems xs lvl ++ '\n' :: (indentChars lvl2 ++ (']' :: rest)))
      = some (xs, rest)
  | xs, 0, _, _, _ => by
      intro hsz _
      have := jsizeList_pos xs
      omega
  | [], fuel + 1, lvl, lvl2, rest => by
      intro _ _
      rw [dumpItems]
      simp only [List.nil_append]
      rw [parseItems, skipWs_nl_indent_append]
      rw [skipWs_not _ _ (by decide)]
      simp [show (']' = ',') = False from eq_false (by decide)]
  | x :: xs, fuel + 1, lvl, lvl2, rest => by
      intro hsz hwf
      rw [dumpItems]
      simp only [List.cons_append, List.append_assoc]
      rw [parseItems]
      rw [skipWs_not _ _ (by decide)]
      simp only [show (',' = ',') = True from eq_true rfl, if_true]
      rw [jsizeList] at hsz
      have hpx := jsize_pos x
      have hpxs := jsizeList_pos xs
      rw [jsonWFList] at hwf
      simp only [Bool.and_eq_true] at hwf
      have hx := parse_dumpVal x fuel lvl ('\n' :: indentChars lvl)
        (dumpItems xs lvl ++ '\n' :: (indentChars lvl2 ++ ']' :: rest))
        (by omega) hwf.1 (wsOnly_nl_indent lvl) (dumpItems_noDigit xs lvl _)
      simp only [List.cons_append, List.append_assoc] at hx
      rw [hx, optBind_some]
      rw [parse_dumpItems xs fuel lvl lvl2 rest (by omega) hwf.2, optBind_some]

/-- Parsing back the printed remainder of an object after its first
member. -/
theorem parse_dumpMembers : ∀ (kvs : List (String × Json)) (fuel lvl lvl2 : Nat)
    (rest : List Char),
    jsizeFields kvs ≤ fuel → jsonWFFields kvs = true →
    parseMembers fuel
        (dumpMembers kvs lvl ++ '\n' :: (indentChars lvl2 ++ (rbrace :: rest)))
      = some (kvs, rest)
  | kvs, 0, _, _, _ => by
      intro hsz _
      have := jsizeFields_pos kvs
      omega
  | [], fuel + 1, lvl, lvl2, rest => by
      intro _ _
      rw [dumpMembers]
      simp only [List.nil_append]
      rw [parseMembers, skipWs_nl_indent_append]
      rw [skipWs_not _ _ (by decide)]
      simp [show (rbrace = ',') = False from eq_false (by decide)]
  | (k, v) :: kvs, fuel + 1, lvl, lvl2, rest => by
      intro hsz hwf
      rw [dumpMembers, dumpMember]
      simp only [List.cons_append, List.append_assoc]
      rw [parseMembers]
      rw [skipWs_not _ _ (by decide)]
      simp only [show (',' = ',') = True from eq_true rfl, if_true]
      rw [skipWs_nl_indent_append]
      rw [skipWs_not _ _ (by decide)]
      simp only [show ('"' = '"') = True from eq_true rfl, if_true]
      rw [escapeList_parse k.data _, optBind_some]
      rw [skipWs_not _ _ (by decide)]
      simp only [show (':' = ':') = True from eq_true rfl, if_true]
      rw [jsizeFields] at hsz
      have hsz2 : 1 + jsize v + jsizeFields kvs ≤ fuel + 1 := by simpa using hsz
      have hpv := jsize_pos v
      have hpk := jsizeFields_pos kvs
      rw [jsonWFFields] at hwf
      simp only [Bool.and_eq_true] at hwf
      have hv := parse_dumpVal v fuel lvl [' ']
        (dumpMembers kvs lvl ++ '\n' :: (indentChars lvl2 ++ rbrace :: rest))
        (by omega) hwf.1 wsOnly_space (dumpMembers_noDigit kvs lvl _)
      rw [List.singleton_append] at hv
      simp only [hv, optBind_some]
      rw [parse_dumpMembers kvs fuel lvl lvl2 rest (by omega) hwf.2, optBind_some]

end

/-- Every natural number prints at least one digit. -/
theorem natDigits_length_pos (m : Nat) : 1 ≤ (natDigits m).length := by
  obtain ⟨d, ds, hds, _⟩ := natDigits_head m
  rw [hds]
  simp

mutual

/-- The printed text of a value is at least as long as its parser-fuel
cost, so a fuel budget of the text length is always sufficient. -/
theorem jsize_le_dump : ∀ (j : Json) (lvl : Nat), jsize j ≤ (dumpVal j lvl).length
  | .null, lvl => by rw [dumpVal, jsize]; simp
  | .bool true, lvl => by rw [dumpVal, jsize]; simp
  | .bool false, lvl => by rw [dumpVal, jsize]; simp
  | .num n, lvl => by
      rw [dumpVal, jsize]
      unfold intChars
      by_cases hn : n < 0
      · rw [if_pos hn]
        simp only [List.length_cons]
        omega
      · rw [if_neg hn]
        exact natDigits_length_pos n.toNat
  | .str s, lvl => by
      rw [dumpVal, jsize]
      simp only [List.length_cons]
      omega
  | .arr [], lvl => by rw [dumpVal, jsize, jsizeList]; simp
  | .arr (x :: xs), lvl => by
      rw [dumpVal, jsize, jsizeList]
      have hx := jsize_le_dump x (lvl + 1)
      have hxs := jsizeList_le_items xs (lvl + 1)
      simp only [List.length_cons, List.length_append, indentChars,
        List.length_replicate]
      omega
  | .obj [], lvl => by rw [dumpVal, jsize, jsizeFields]; simp
  | .obj ((k, v) :: kvs), lvl => by
      rw [dumpVal, jsize, jsizeFields, dumpMember]
      have hv := jsize_le_dump v (lvl + 1)
      have hkvs := jsizeFields_le_members kvs (lvl + 1)
      simp only [List.length_cons, List.length_append, indentChars,
        List.length_replicate]
      omega
  termination_by j _ => jsize j
  decreasing_by
    all_goals simp only [jsize, jsizeList, jsizeFields]
    all_goals first
      | (have h := jsizeList_pos xs; omega)
      | (have h := jsizeFields_pos kvs; omega)
      | omega

/-- Fuel bound for the tail of a printed array. -/
theorem jsizeList_le_items : ∀ (xs : List Json) (lvl : Nat),
    jsizeList xs ≤ (dumpItems xs lvl).length + 1
  | [], lvl => by rw [dumpItems, jsizeList]; simp
  | x :: xs, lvl => by
      rw [dumpItems, jsizeList]
      have hx := jsize_le_dump x lvl
      have hxs := jsizeList_le_items xs lvl
      simp only [List.length_cons, List.length_append, indentChars,
        List.length_replicate]
      omega
  termination_by xs _ => jsizeList xs
  decreasing_by
    all_goals simp only [jsize, jsizeList, jsizeFields]
    all_goals (have h := jsize_pos x; omega)

/-- Fuel bound for the tail of a printed object. -/
theorem jsizeFields_le_members : ∀ (kvs : List (String × Json)) (lvl : Nat),
    jsizeFields kvs ≤ (dumpMembers kvs lvl).length + 1
  | [], lvl => by rw [dumpMembers, jsizeFields]; simp
  | (k, v) :: kvs, lvl => by
      rw [dumpMembers, dumpMember, jsizeFields]
      have hv := jsize_le_dump v lvl
      have hkvs := jsizeFields_le_members kvs lvl
      simp only [List.length_cons, List.length_append, indentChars,
        List.length_replicate]
      omega
  termination_by kvs _ => jsizeFields kvs
  decreasing_by
    all_goals simp only [jsize, jsizeList, jsizeFields]
    all_goals (have h := jsize_pos v; omega)

end

/-- Length of a string built from an explicit character list. -/
theorem stringMk_length (l : List Char) : (String.mk l).length = l.length := rfl

/-- C9: for every scan report (any document a Python `resp.json()` can
produce, i.e. one whose objects have no duplicate keys), exporting it
with `ScanReport.export` and re-loading the file contents yields the
identical document. -/
theorem export_roundtrip (report : Json) (hwf : jsonWF report = true) :
    jsonLoads (exportContents report) = some report := by
  unfold jsonLoads exportContents
  have hp := parse_dumpVal report ((String.mk (dumpVal report 0)).length + 1) 0 [] []
    (by rw [stringMk_length]; have := jsize_le_dump report 0; omega)
    hwf wsOnly_nil trivial
  rw [List.nil_append, List.append_nil] at hp
  rw [stringMk_data, hp]
  simp [skipWs]

/-- C9 witness: a concrete report with both required sections, nested
containers, a number and strings round-trips through export and load. -/
theorem export_roundtrip_witness :
    jsonWF (Json.obj [("Vulnerabilities", Json.arr [Json.obj [("Vulnerability",
      Json.obj [("Details", Json.obj [("severity", Json.str "High")])])]]),
      ("Detections", Json.arr [Json.obj [("Detection", Json.obj [("Type",
      Json.str "secret")])]]), ("n", Json.num (-12))]) = true ∧
    jsonLoads (exportContents (Json.obj [("Vulnerabilities", Json.arr [Json.obj
      [("Vulnerability", Json.obj [("Details", Json.obj [("severity",
      Json.str "High")])])]]), ("Detections", Json.arr [Json.obj [("Detection",
      Json.obj [("Type", Json.str "secret")])]]), ("n", Json.num (-12))]))
      = some (Json.obj [("Vulnerabilities", Json.arr [Json.obj [("Vulnerability",
      Json.obj [("Details", Json.obj [("severity", Json.str "High")])])]]),
      ("Detections", Json.arr [Json.obj [("Detection", Json.obj [("Type",
      Json.str "secret")])]]), ("n", Json.num (-12))]) := by
  have hwf : jsonWF (Json.obj [("Vulnerabilities", Json.arr [Json.obj
      [("Vulnerability", Json.obj [("Details", Json.obj [("severity",
      Json.str "High")])])]]), ("Detections", Json.arr [Json.obj [("Detection",
      Json.obj [("Type", Json.str "secret")])]]), ("n", Json.num (-12))]) = true := by
    simp [jsonWF, jsonWFList, jsonWFFields, nodupKeys]
  exact ⟨hwf, export_roundtrip _ hwf⟩
